import Mathlib

/-!
Shallow embedding of the Prompt Saver extension data layer (src/utils.js).

The JavaScript runtime is modelled as follows.

* Strings are Lean `String`s; string operations (`toLowerCase`, `trim`,
  `includes`, `split`) are modelled on the ASCII range, which covers every
  string the claims quantify over.
* JS values flowing through `PromptDataManager` are modelled by the
  inductive type `JVal` (strings, numbers as integers, booleans, `null`,
  `undefined`, arrays, objects as insertion-ordered association lists).
  JS numbers are modelled as integers; no claim involves fractional or
  `NaN` numeric data.
* `new Date(s)` is modelled by `jsParseDate`, covering the ISO shapes
  `YYYY-MM-DD` and `YYYY-MM-DDTHH:MM:SS(.mmm)?(Z)?` that the code's own
  `isoRegex` accepts, with the host timezone modelled as UTC; all other
  (implementation-defined) date formats are modelled as invalid dates.
* `Array.prototype.sort` is modelled as a stable merge sort; for the
  consistent comparators the claims exercise this is exactly the
  ECMAScript-observable behaviour.  A comparator returning `NaN` is
  modelled as returning `0`, matching ES `SortCompare`.
* `localeCompare` is modelled as root-locale collation restricted to
  ASCII: primary order is codepoint order of the lowercased strings, and
  on a primary tie a lowercase letter sorts before its uppercase form.
* Thrown exceptions are modelled with `Except`; a `catch` block is a
  `match` on the `.error` case.  `saveSettingsDebounced`, logging and DOM
  access are effect-free for the stored prompt map and are omitted.
-/

namespace PromptSaver

/-- Models `String.prototype.toLowerCase` on the ASCII range. -/
def jsCharToLower (c : Char) : Char :=
  if 'A' ≤ c ∧ c ≤ 'Z' then Char.ofNat (c.toNat + 32) else c

/-- Lowercase every character (ASCII model of `toLowerCase`). -/
def jsToLower (s : String) : String :=
  String.mk (s.data.map jsCharToLower)

/-- Whitespace characters recognised by the model of `String.prototype.trim`. -/
def jsIsWhitespace (c : Char) : Bool :=
  c = ' ' ∨ c = '\t' ∨ c = '\n' ∨ c = '\r' ∨ c = '\x0b' ∨ c = '\x0c'

/-- Models `String.prototype.trim` (ASCII whitespace). -/
def jsTrim (s : String) : String :=
  String.mk (((s.data.dropWhile jsIsWhitespace).reverse.dropWhile jsIsWhitespace).reverse)

/-- Does `hay` start with `sub` (helper for the substring test)? -/
def listStartsWith : List Char → List Char → Bool
  | _, [] => true
  | [], _ :: _ => false
  | h :: hs, n :: ns => h = n && listStartsWith hs ns

/-- Does `hay` contain `sub` as a contiguous run (helper for `includes`)? -/
def listHasSub (hay sub : List Char) : Bool :=
  listStartsWith hay sub ||
    match hay with
    | [] => false
    | _ :: t => listHasSub t sub

/-- Models `String.prototype.includes`. -/
def jsIncludes (hay sub : String) : Bool :=
  listHasSub hay.data sub.data

/-- Models `String.prototype.split` with a single-character separator. -/
def jsSplitAux (sep : Char) : List Char → List Char → List (List Char)
  | [], acc => [acc.reverse]
  | c :: cs, acc =>
    if c = sep then acc.reverse :: jsSplitAux sep cs []
    else jsSplitAux sep cs (c :: acc)

/-- Models `content.split(newline)` as used by `generateContentDiff`. -/
def jsSplitLines (s : String) : List String :=
  (jsSplitAux '\n' s.data []).map (fun cs => String.mk cs)

/-- A parsed calendar date, the model of a non-invalid JS `Date`
(the host timezone is modelled as UTC). -/
structure JSDate where
  year : Nat
  month : Nat
  day : Nat
  hour : Nat
  minute : Nat
  second : Nat
  milli : Nat
  deriving Repr, DecidableEq

/-- Injective monotone encoding of a date, used to compare instants. -/
def JSDate.key (d : JSDate) : Nat :=
  ((((d.year * 13 + d.month) * 32 + d.day) * 24 + d.hour) * 60 + d.minute) * 60000
    + d.second * 1000 + d.milli

/-- Sign of the JS expression `dateA - dateB` for two valid dates. -/
def jsDateDiffSign (a b : JSDate) : Int :=
  if a.key < b.key then -1 else if b.key < a.key then 1 else 0

def isLeapYear (y : Nat) : Bool :=
  (y % 4 = 0 ∧ y % 100 ≠ 0) ∨ y % 400 = 0

def daysInMonth (y m : Nat) : Nat :=
  if m = 2 then (if isLeapYear y then 29 else 28)
  else if m = 4 ∨ m = 6 ∨ m = 9 ∨ m = 11 then 30
  else 31

def isDigitChar (c : Char) : Bool := '0' ≤ c ∧ c ≤ '9'

def digitVal (c : Char) : Nat := c.toNat - '0'.toNat

/-- Read exactly `n` decimal digits, returning their value and the rest. -/
def readDigits : Nat → List Char → Option (Nat × List Char)
  | 0, cs => some (0, cs)
  | _ + 1, [] => none
  | n + 1, c :: cs =>
    if isDigitChar c then
      match readDigits n cs with
      | some (v, rest) => some (digitVal c * 10 ^ n + v, rest)
      | none => none
    else none

def expectChar (c : Char) : List Char → Option (List Char)
  | [] => none
  | x :: xs => if x = c then some xs else none

/-- Parse the optional `.mmm` milliseconds part and the optional `Z`
suffix of an ISO date-time string. -/
def parseMsAndZone : List Char → Option Nat
  | [] => some 0
  | ['Z'] => some 0
  | '.' :: rest =>
    match readDigits 3 rest with
    | some (ms, []) => some ms
    | some (ms, ['Z']) => some ms
    | _ => none
  | _ => none

/-- Parse the `THH:MM:SS(.mmm)?(Z)?` tail of an ISO date-time string. -/
def parseTimeTail (y mo d : Nat) : List Char → Option JSDate
  | [] => some ⟨y, mo, d, 0, 0, 0, 0⟩
  | 'T' :: rest => do
    let (h, rest) ← readDigits 2 rest
    let rest ← expectChar ':' rest
    let (mi, rest) ← readDigits 2 rest
    let rest ← expectChar ':' rest
    let (s, rest) ← readDigits 2 rest
    let ms ← parseMsAndZone rest
    if h ≤ 23 ∧ mi ≤ 59 ∧ s ≤ 59 then some ⟨y, mo, d, h, mi, s, ms⟩ else none
  | _ => none

/-- Models `new Date(s)` on the ISO shapes the code deals in: `YYYY-MM-DD`
and `YYYY-MM-DDTHH:MM:SS(.mmm)?(Z)?`, with out-of-range components
rejected as the engine's ISO parsing path does.  Other
implementation-defined formats are modelled as invalid dates (`none`). -/
def jsParseDate (s : String) : Option JSDate := do
  let cs := s.data
  let (y, rest) ← readDigits 4 cs
  let rest ← expectChar '-' rest
  let (mo, rest) ← readDigits 2 rest
  let rest ← expectChar '-' rest
  let (d, rest) ← readDigits 2 rest
  if 1 ≤ mo ∧ mo ≤ 12 ∧ 1 ≤ d ∧ d ≤ daysInMonth y mo then
    parseTimeTail y mo d rest
  else none

/-- Zero-padded decimal rendering, for `toISOString`. -/
def padNum (width n : Nat) : String :=
  let s := toString n
  String.mk (List.replicate (width - s.length) '0') ++ s

/-- Models `Date.prototype.toISOString`. -/
def toISOString (d : JSDate) : String :=
  padNum 4 d.year ++ "-" ++ padNum 2 d.month ++ "-" ++ padNum 2 d.day ++ "T" ++
    padNum 2 d.hour ++ ":" ++ padNum 2 d.minute ++ ":" ++ padNum 2 d.second ++
    "." ++ padNum 3 d.milli ++ "Z"

/-- Shape test for the code's `isoRegex`
`^\d-digits{4}-\d{2}-\d{2}T\d{2}:\d{2}:\d{2}(\.\d{3})?Z?$`. -/
def isoShapeTest (s : String) : Bool :=
  let step : Option (List Char) := do
    let (_, rest) ← readDigits 4 s.data
    let rest ← expectChar '-' rest
    let (_, rest) ← readDigits 2 rest
    let rest ← expectChar '-' rest
    let (_, rest) ← readDigits 2 rest
    let rest ← expectChar 'T' rest
    let (_, rest) ← readDigits 2 rest
    let rest ← expectChar ':' rest
    let (_, rest) ← readDigits 2 rest
    let rest ← expectChar ':' rest
    let (_, rest) ← readDigits 2 rest
    some rest
  match step with
  | none => false
  | some rest =>
    match rest with
    | [] => true
    | ['Z'] => true
    | '.' :: tail =>
      match readDigits 3 tail with
      | some (_, []) => true
      | some (_, ['Z']) => true
      | _ => false
    | _ => false

/-- Models `dateString.replace(Z, empty)`: drop the first `Z`. -/
def dropFirstZ : List Char → List Char
  | [] => []
  | c :: cs => if c = 'Z' then cs else c :: dropFirstZ cs

/-- `PromptDataManager.isValidISODate` on an actual string argument. -/
def isValidISODateStr (s : String) : Bool :=
  if s = "" then false
  else
    match jsParseDate s with
    | none => false
    | some d => isoShapeTest s && listStartsWith (toISOString d).data (dropFirstZ s.data)

/-- A JavaScript value, as stored in and passed through
`PromptDataManager`.  Objects are insertion-ordered association lists,
matching the enumeration order of string-keyed JS objects (no prompt id
is an integer-like key).  Numbers are modelled as integers. -/
inductive JVal where
  | vstr (s : String)
  | vnum (n : Int)
  | vbool (b : Bool)
  | vnull
  | vundef
  | varr (elems : List JVal)
  | vobj (fields : List (String × JVal))
  deriving Repr, BEq

/-- JS truthiness. -/
def truthy : JVal → Bool
  | .vstr s => s ≠ ""
  | .vnum n => n ≠ 0
  | .vbool b => b
  | .vnull => false
  | .vundef => false
  | .varr _ => true
  | .vobj _ => true

/-- The JS expression `a || b`. -/
def jsOr (a b : JVal) : JVal := if truthy a then a else b

def isStr : JVal → Bool
  | .vstr _ => true
  | _ => false

def isBool : JVal → Bool
  | .vbool _ => true
  | _ => false

def isNum : JVal → Bool
  | .vnum _ => true
  | _ => false

def isArr : JVal → Bool
  | .varr _ => true
  | _ => false

/-- String payload of a value, with a default for non-strings. -/
def asStr : JVal → String
  | .vstr s => s
  | _ => ""

def fieldsGet : List (String × JVal) → String → Option JVal
  | [], _ => none
  | (k, v) :: rest, key => if k = key then some v else fieldsGet rest key

/-- Property read `v[k]` on a value already known not to be
`null`/`undefined`: a missing key, or a primitive receiver, yields
`undefined`. -/
def jget (v : JVal) (k : String) : JVal :=
  match v with
  | .vobj fields => (fieldsGet fields k).getD .vundef
  | _ => ( .vundef : JVal)

/-- Property read `v.k`, which throws a `TypeError` when the receiver is
`null` or `undefined`. -/
def jgetE (v : JVal) (k : String) : Except String JVal :=
  match v with
  | .vnull => .error ("Cannot read properties of null reading " ++ k)
  | .vundef => .error ("Cannot read properties of undefined reading " ++ k)
  | _ => .ok (jget v k)

/-- Optional chaining `v?.k`. -/
def jgetOpt (v : JVal) (k : String) : JVal :=
  match v with
  | .vnull => .vundef
  | .vundef => .vundef
  | _ => jget v k

/-- Assignment `obj[k] = v` on an association list: replace in place,
keeping the key's position, or append a fresh key. -/
def fieldsSet : List (String × JVal) → String → JVal → List (String × JVal)
  | [], key, v => [(key, v)]
  | (k, w) :: rest, key, v =>
    if k = key then (k, v) :: rest else (k, w) :: fieldsSet rest key v

/-- Spread `...v` into an object literal already holding `base`: own
enumerable entries of an object (or the indexed characters/elements of a
string/array) are assigned in order; other primitives contribute
nothing. -/
def spreadFields (base : List (String × JVal)) : JVal → List (String × JVal)
  | .vobj fields => fields.foldl (fun acc kv => fieldsSet acc kv.1 kv.2) base
  | .vstr s =>
    (s.data.enum.map (fun ic => (toString ic.1, JVal.vstr (String.mk [ic.2])))).foldl
      (fun acc kv => fieldsSet acc kv.1 kv.2) base
  | .varr elems =>
    (elems.enum.map (fun ie => (toString ie.1, ie.2))).foldl
      (fun acc kv => fieldsSet acc kv.1 kv.2) base
  | _ => base

/-- Rendering of a value inside a template literal (`ToString`); only the
cases the messages of the code can meet are given in full. -/
def display : JVal → String
  | .vstr s => s
  | .vnum n => toString n
  | .vbool b => if b then "true" else "false"
  | .vnull => "null"
  | .vundef => "undefined"
  | .varr _ => ""
  | .vobj _ => "[object Object]"

/-- `PromptDataManager.isValidISODate` (`src/utils.js:349`): non-strings
and empty strings are rejected, then the parsed date must exist and the
string must match `isoRegex` and be a prefix of its own `toISOString`. -/
def isValidISODate (v : JVal) : Bool :=
  match v with
  | .vstr s => isValidISODateStr s
  | _ => false

def isUndef : JVal → Bool
  | .vundef => true
  | _ => false

def isNull : JVal → Bool
  | .vnull => true
  | _ => false

/-- The test `[user, assistant, system].includes(role)` (strict equality). -/
def roleIncluded : JVal → Bool
  | .vstr s => s = "user" ∨ s = "assistant" ∨ s = "system"
  | _ => false

/-- Is every element of `tags` a string (`tags.every(typeof string)`)?  -/
def allStrings : List JVal → Bool
  | [] => true
  | v :: rest => isStr v && allStrings rest

/-- Is the value a negative number (the `usage_count < 0` half of the check)? -/
def isNegNum : JVal → Bool
  | .vnum n => decide (n < 0)
  | _ => false

/-- Is the value an array whose elements are all strings? -/
def isStringArray : JVal → Bool
  | .varr elems => allStrings elems
  | _ => false

/-- `PromptDataManager.validatePromptData` (`src/utils.js:265`): collects
human-readable error strings in source order; the record is valid when
the list is empty.  Reading a property of a `null`/`undefined` argument
throws, modelled by the `Except.error` case. -/
def validatePromptData (promptData : JVal) : Except String (List String) :=
  match jgetE promptData "id" with
  | .error e => .error e
  | .ok idv =>
    let g := jget promptData
    let errors : List String := []
    let errors := if ¬ truthy idv ∨ ¬ isStr idv then
        errors ++ ["Prompt ID is required and must be a string"] else errors
    let errors := if ¬ truthy (g "name") ∨ ¬ isStr (g "name") ∨ jsTrim (asStr (g "name")) = "" then
        errors ++ ["Prompt name is required and must be a non-empty string"] else errors
    let errors := if ¬ truthy (g "content") ∨ ¬ isStr (g "content") ∨ jsTrim (asStr (g "content")) = "" then
        errors ++ ["Prompt content is required and must be a non-empty string"] else errors
    let errors := if ¬ truthy (g "role") ∨ ¬ roleIncluded (g "role") then
        errors ++ ["Prompt role must be one of: user, assistant, system"] else errors
    let errors := if ¬ isUndef (g "system_prompt") ∧ ¬ isBool (g "system_prompt") then
        errors ++ ["system_prompt must be a boolean"] else errors
    let errors := if ¬ isUndef (g "marker") ∧ ¬ isBool (g "marker") then
        errors ++ ["marker must be a boolean"] else errors
    let errors := if ¬ isUndef (g "injection_position") ∧ ¬ isNum (g "injection_position") then
        errors ++ ["injection_position must be a number"] else errors
    let errors := if ¬ isUndef (g "injection_depth") ∧ ¬ isNum (g "injection_depth") then
        errors ++ ["injection_depth must be a number"] else errors
    let errors := if ¬ isUndef (g "injection_order") ∧ ¬ isNum (g "injection_order") then
        errors ++ ["injection_order must be a number"] else errors
    let errors := if ¬ isUndef (g "forbid_overrides") ∧ ¬ isBool (g "forbid_overrides") then
        errors ++ ["forbid_overrides must be a boolean"] else errors
    let md := g "metadata"
    let errors :=
      if truthy md then
        let m := jget md
        let errors := if truthy (m "created_at") ∧ ¬ isValidISODate (m "created_at") then
            errors ++ ["metadata.created_at must be a valid ISO date string"] else errors
        let errors := if truthy (m "last_used") ∧ ¬ isValidISODate (m "last_used") then
            errors ++ ["metadata.last_used must be a valid ISO date string"] else errors
        let errors := if ¬ isUndef (m "favorite") ∧ ¬ isBool (m "favorite") then
            errors ++ ["metadata.favorite must be a boolean"] else errors
        let errors :=
          if ¬ isUndef (m "usage_count") ∧ (¬ isNum (m "usage_count") ∨ isNegNum (m "usage_count")) then
            errors ++ ["metadata.usage_count must be a non-negative number"] else errors
        let errors :=
          if truthy (m "tags") ∧ (¬ isArr (m "tags") ∨ ¬ isStringArray (m "tags")) then
            errors ++ ["metadata.tags must be an array of strings"] else errors
        let errors := if ¬ isUndef (m "source_preset") ∧ ¬ isNull (m "source_preset") ∧ ¬ isStr (m "source_preset") then
            errors ++ ["metadata.source_preset must be a string or null"] else errors
        errors
      else errors
    .ok errors

/-- The date repair helper inside `repairPromptData` (`src/utils.js:642`):
falsy or non-string input becomes `null`; an unparseable date becomes
`null`; otherwise the date is re-rendered through `toISOString`. -/
def fixDateString (v : JVal) : JVal :=
  if ¬ truthy v then .vnull
  else match v with
    | .vstr s =>
      match jsParseDate s with
      | none => .vnull
      | some d => .vstr (toISOString d)
    | _ => .vnull

/-- `PromptDataManager.repairPromptData` (`src/utils.js:637`): best-effort
reconstruction with defaults, re-validated before being returned.
`generatePromptId()` and `new Date().toISOString()` are supplied as the
`genId` and `now` parameters.  A `null`/`undefined` argument throws on
the first property read and the catch block returns `null`. -/
def repairPromptData (genId now : String) (v : JVal) : Option JVal :=
  match v with
  | .vnull => none
  | .vundef => none
  | _ =>
    let g := jget v
    let md := g "metadata"
    let repaired := JVal.vobj [
      ("id", jsOr (g "id") (.vstr genId)),
      ("name", jsOr (g "name") (.vstr "Recovered Prompt")),
      ("content", jsOr (g "content") (.vstr "")),
      ("role", if roleIncluded (g "role") then g "role" else .vstr "user"),
      ("system_prompt", if isBool (g "system_prompt") then g "system_prompt" else .vbool false),
      ("marker", if isBool (g "marker") then g "marker" else .vbool false),
      ("injection_position", if isNum (g "injection_position") then g "injection_position" else .vnum 0),
      ("injection_depth", if isNum (g "injection_depth") then g "injection_depth" else .vnum 4),
      ("injection_order", if isNum (g "injection_order") then g "injection_order" else .vnum 100),
      ("forbid_overrides", if isBool (g "forbid_overrides") then g "forbid_overrides" else .vbool false),
      ("metadata", .vobj [
        ("created_at", jsOr (fixDateString (jgetOpt md "created_at")) (.vstr now)),
        ("last_used", fixDateString (jgetOpt md "last_used")),
        ("favorite", if isBool (jgetOpt md "favorite") then jgetOpt md "favorite" else .vbool false),
        ("usage_count", if isNum (jgetOpt md "usage_count") then jgetOpt md "usage_count" else .vnum 0),
        ("tags", if isArr (jgetOpt md "tags") then jgetOpt md "tags" else .varr []),
        ("source_preset", jsOr (jgetOpt md "source_preset") .vnull)])]
    match validatePromptData repaired with
    | .ok [] => some repaired
    | _ => none

/-- `PromptDataManager.createPromptData` (`src/utils.js:370`): completes a
partial record with defaults; the trailing `...promptData.metadata`
spread re-imposes every metadata entry the caller supplied. -/
def createPromptData (genId now : String) (v : JVal) : Except String JVal :=
  match jgetE v "id" with
  | .error e => .error e
  | .ok idv =>
    let g := jget v
    let md := g "metadata"
    .ok (JVal.vobj [
      ("id", jsOr idv (.vstr genId)),
      ("name", jsOr (g "name") (.vstr "Untitled Prompt")),
      ("content", jsOr (g "content") (.vstr "")),
      ("role", jsOr (g "role") (.vstr "user")),
      ("system_prompt", jsOr (g "system_prompt") (.vbool false)),
      ("marker", jsOr (g "marker") (.vbool false)),
      ("injection_position", jsOr (g "injection_position") (.vnum 0)),
      ("injection_depth", jsOr (g "injection_depth") (.vnum 4)),
      ("injection_order", jsOr (g "injection_order") (.vnum 100)),
      ("forbid_overrides", jsOr (g "forbid_overrides") (.vbool false)),
      ("metadata", .vobj (spreadFields [
        ("created_at", jsOr (jgetOpt md "created_at") (.vstr now)),
        ("last_used", jsOr (jgetOpt md "last_used") .vnull),
        ("favorite", jsOr (jgetOpt md "favorite") (.vbool false)),
        ("usage_count", jsOr (jgetOpt md "usage_count") (.vnum 0)),
        ("tags", jsOr (jgetOpt md "tags") (.varr [])),
        ("source_preset", jsOr (jgetOpt md "source_preset") .vnull)] md))])

/-- The persisted prompt map `extension_settings[name].prompts`. -/
abbrev Store := List (String × JVal)

/-- `delete prompts[id]` keeps the order of the remaining keys. -/
def storeDelete (store : Store) (key : String) : Store :=
  match store with
  | [] => []
  | (k, v) :: rest => if k = key then rest else (k, v) :: storeDelete rest key

/-- Loop body of `getPrompts` (`src/utils.js:499`): walks a snapshot of
the stored entries accumulating the valid view, repairing records in
place and deleting unrepairable ones from the live store.  The boolean is
false when validation threw (a `null`/`undefined` stored value), in which
case the outer catch returns the empty map while keeping the mutations
already made. -/
def getPromptsGo (genId now : String) : List (String × JVal) → Store → Store → Bool × Store × Store
  | [], valid, store => (true, valid, store)
  | (id, p) :: rest, valid, store =>
    match validatePromptData p with
    | .error _ => (false, valid, store)
    | .ok errs =>
      if errs.isEmpty then getPromptsGo genId now rest (valid ++ [(id, p)]) store
      else
        match repairPromptData genId now p with
        | some rep => getPromptsGo genId now rest (valid ++ [(id, rep)]) (fieldsSet store id rep)
        | none => getPromptsGo genId now rest valid (storeDelete store id)

/-- `PromptDataManager.getPrompts` with no filters (`src/utils.js:499`),
returning the valid view and the possibly-mutated store. -/
def getPrompts (genId now : String) (store : Store) : Store × Store :=
  match getPromptsGo genId now store [] store with
  | (true, valid, newStore) => (valid, newStore)
  | (false, _, newStore) => ([], newStore)

/-- The uniform result object of the data operations; an `Option` field
set to `none` models an absent property. -/
structure OpResult where
  success : Bool
  promptData : Option JVal
  error : Option String
  message : String
  deriving Repr

/-- `PromptDataManager.savePrompt` (`src/utils.js:403`).  `maxPrompts` is
the resolved value of `extensionSettings.settings?.max_prompts || 1000`;
`genId` and `now` stand for `generatePromptId()` and
`new Date().toISOString()`. -/
def savePrompt (genId now : String) (maxPrompts : Int) (store : Store) (v : JVal) :
    OpResult × Store :=
  match createPromptData genId now v with
  | .error e =>
    ({ success := false, promptData := none, error := some e,
       message := "Failed to save prompt" }, store)
  | .ok complete =>
    match validatePromptData complete with
    | .error e =>
      ({ success := false, promptData := none, error := some e,
         message := "Failed to save prompt" }, store)
    | .ok errs =>
      if ¬ errs.isEmpty then
        ({ success := false, promptData := none,
           error := some ("Prompt validation failed: " ++ String.intercalate ", " errs),
           message := "Failed to save prompt" }, store)
      else
        let res := getPrompts genId now store
        let current := res.1
        let store1 := res.2
        let cid := asStr (jget complete "id")
        if (current.length : Int) ≥ maxPrompts ∧ ¬ truthy ((fieldsGet current cid).getD .vundef) then
          ({ success := false, promptData := none,
             error := some ("Storage limit reached. Maximum " ++ toString maxPrompts ++ " prompts allowed."),
             message := "Failed to save prompt" }, store1)
        else
          ({ success := true, promptData := some complete, error := none,
             message := "Prompt saved successfully" }, fieldsSet store1 cid complete)

/-- `PromptDataManager.loadPrompt` (`src/utils.js:458`): validates the
stored record, repairing (and persisting the repair) when needed. -/
def loadPrompt (genId now : String) (store : Store) (pid : String) : Option JVal × Store :=
  match fieldsGet store pid with
  | none => (none, store)
  | some p =>
    if ¬ truthy p then (none, store)
    else
      match validatePromptData p with
      | .error _ => (none, store)
      | .ok errs =>
        if errs.isEmpty then (some p, store)
        else
          match repairPromptData genId now p with
          | some rep => (some rep, fieldsSet store pid rep)
          | none => (none, store)

/-- `PromptDataManager.deletePrompt` (`src/utils.js:550`). -/
def deletePrompt (store : Store) (pid : String) : OpResult × Store :=
  if ¬ truthy ((fieldsGet store pid).getD .vundef) then
    ({ success := false, promptData := none, error := some "Prompt not found",
       message := "Prompt does not exist" }, store)
  else
    ({ success := true, promptData := none, error := none,
       message := "Prompt deleted successfully" }, storeDelete store pid)

/-- `PromptDataManager.updatePromptMetadata` (`src/utils.js:585`). -/
def updatePromptMetadata (genId now : String) (store : Store) (pid : String) (metadata : JVal) :
    OpResult × Store :=
  let res := loadPrompt genId now store pid
  let store1 := res.2
  match res.1 with
  | none =>
    ({ success := false, promptData := none, error := some "Prompt not found",
       message := "Prompt does not exist" }, store1)
  | some p =>
    let newMeta := JVal.vobj (spreadFields (spreadFields [] (jget p "metadata")) metadata)
    let p' := match p with
      | .vobj fs => JVal.vobj (fieldsSet fs "metadata" newMeta)
      | _ => p
    match validatePromptData p' with
    | .error e =>
      ({ success := false, promptData := none, error := some e,
         message := "Failed to update prompt metadata" }, store1)
    | .ok errs =>
      if ¬ errs.isEmpty then
        ({ success := false, promptData := none,
           error := some ("Validation failed: " ++ String.intercalate ", " errs),
           message := "Invalid metadata update" }, store1)
      else
        ({ success := true, promptData := some p', error := none,
           message := "Prompt metadata updated successfully" }, fieldsSet store1 pid p')

/-- The result of `exportPrompts`. -/
structure ExportResult where
  success : Bool
  data : Option JVal
  error : Option String
  message : String
  deriving Repr

/-- `PromptDataManager.exportPrompts` (`src/utils.js:739`): wraps the
valid view of the store with a version tag, the export timestamp
(`exportedAt` models `new Date().toISOString()`) and a count. -/
def exportPrompts (genId now exportedAt : String) (store : Store) : ExportResult × Store :=
  let res := getPrompts genId now store
  ({ success := true,
     data := some (JVal.vobj [
       ("version", .vstr "1.0.0"),
       ("exported_at", .vstr exportedAt),
       ("prompt_count", .vnum res.1.length),
       ("prompts", .vobj res.1)]),
     error := none,
     message := "Prompts exported successfully" }, res.2)

def jsonWs (c : Char) : Bool := c = ' ' ∨ c = '\t' ∨ c = '\n' ∨ c = '\r'

/-- Scan a JSON string body up to the closing quote.  Escape sequences
are outside the modelled fragment (no claim feeds them in). -/
def scanJsonString : List Char → Option (String × List Char)
  | [] => none
  | c :: cs =>
    if c = '"' then some ("", cs)
    else if c = '\\' then none
    else match scanJsonString cs with
      | some (s, rest) => some (String.mk (c :: s.data), rest)
      | none => none

def scanDigits : List Char → Nat → List Char × Nat
  | c :: cs, acc =>
    if isDigitChar c then scanDigits cs (acc * 10 + digitVal c) else (c :: cs, acc)
  | [], acc => ([], acc)

/-- Scan a JSON integer (the modelled number fragment). -/
def scanJsonInt : List Char → Option (Int × List Char)
  | '-' :: c :: cs =>
    if isDigitChar c then
      let r := scanDigits cs (digitVal c)
      some (-(r.2 : Int), r.1)
    else none
  | c :: cs =>
    if isDigitChar c then
      let r := scanDigits cs (digitVal c)
      some ((r.2 : Int), r.1)
    else none
  | [] => none

mutual

/-- Fuel-indexed model of `JSON.parse` on the fragment the code
round-trips (strings without escapes, integers, booleans, null, arrays,
objects). -/
def parseJson : Nat → List Char → Option (JVal × List Char)
  | 0, _ => none
  | fuel + 1, cs =>
    match cs.dropWhile jsonWs with
    | 'n' :: 'u' :: 'l' :: 'l' :: rest => some (.vnull, rest)
    | 't' :: 'r' :: 'u' :: 'e' :: rest => some (.vbool true, rest)
    | 'f' :: 'a' :: 'l' :: 's' :: 'e' :: rest => some (.vbool false, rest)
    | '"' :: rest =>
      match scanJsonString rest with
      | some (s, rest) => some (.vstr s, rest)
      | none => none
    | '[' :: rest =>
      (match rest.dropWhile jsonWs with
       | ']' :: rest2 => some (.varr [], rest2)
       | _ =>
         match parseJsonList fuel rest with
         | some (elems, rest2) => some (.varr elems, rest2)
         | none => none)
    | '{' :: rest =>
      (match rest.dropWhile jsonWs with
       | '}' :: rest2 => some (.vobj [], rest2)
       | _ =>
         match parseJsonFields fuel rest with
         | some (fields, rest2) => some (.vobj fields, rest2)
         | none => none)
    | other =>
      match scanJsonInt other with
      | some (n, rest) => some (.vnum n, rest)
      | none => none

/-- Comma-separated JSON array elements up to `]`. -/
def parseJsonList : Nat → List Char → Option (List JVal × List Char)
  | 0, _ => none
  | fuel + 1, cs =>
    match parseJson fuel cs with
    | none => none
    | some (v, rest) =>
      match rest.dropWhile jsonWs with
      | ']' :: rest2 => some ([v], rest2)
      | ',' :: rest2 =>
        match parseJsonList fuel rest2 with
        | some (vs, rest3) => some (v :: vs, rest3)
        | none => none
      | _ => none

/-- Comma-separated JSON object members up to the closing brace. -/
def parseJsonFields : Nat → List Char → Option (List (String × JVal) × List Char)
  | 0, _ => none
  | fuel + 1, cs =>
    match cs.dropWhile jsonWs with
    | '"' :: rest =>
      (match scanJsonString rest with
       | none => none
       | some (k, rest2) =>
         match rest2.dropWhile jsonWs with
         | ':' :: rest3 =>
           (match parseJson fuel rest3 with
            | none => none
            | some (v, rest4) =>
              match rest4.dropWhile jsonWs with
              | '}' :: rest5 => some ([(k, v)], rest5)
              | ',' :: rest5 =>
                (match parseJsonFields fuel rest5 with
                 | some (fs, rest6) => some ((k, v) :: fs, rest6)
                 | none => none)
              | _ => none)
         | _ => none)
    | _ => none

end

/-- `JSON.parse` on a whole string: the trailing rest must be whitespace. -/
def jsonParse (s : String) : Option JVal :=
  match parseJson (s.length + 1) s.data with
  | some (v, rest) => if rest.dropWhile jsonWs = [] then some v else none
  | none => none

/-- `Object.entries`: own enumerable entries of an object, the indexed
elements of an array, or the indexed characters of a string. -/
def jsEntries : JVal → List (String × JVal)
  | .vobj fields => fields
  | .varr elems => elems.enum.map (fun ie => (toString ie.1, ie.2))
  | .vstr s => s.data.enum.map (fun ic => (toString ic.1, JVal.vstr (String.mk [ic.2])))
  | _ => []

/-- The caller-facing options object of `importPrompts`; `none` models an
absent key. -/
structure ImportOptions where
  overwriteExisting : Option Bool
  mergeMetadata : Option Bool
  validatePrompts : Option Bool
  createBackup : Option Bool
  deriving Repr, DecidableEq

/-- `importPrompts` with every option left to its default. -/
def defaultImportOptions : ImportOptions :=
  { overwriteExisting := none, mergeMetadata := none, validatePrompts := none,
    createBackup := none }

/-- The aggregate result object of `importPrompts`; `error` is `none`
when the code path never assigned such a key. -/
structure ImportResult where
  success : Bool
  error : Option String
  imported : Nat
  skipped : Nat
  errors : Nat
  totalProcessed : Nat
  details : List JVal
  message : String
  deriving Repr

/-- Outcome of one loop iteration of `importPrompts`: a detail object is
recorded under one of the three statuses. -/
inductive ImportStep where
  | importedOne (detail : JVal)
  | skippedOne (detail : JVal)
  | erroredOne (detail : JVal)
  deriving Repr

/-- The detail object pushed by the `importPrompts` loop; reading
`promptData.name` throws when the imported value is `null`/`undefined`. -/
def importDetail (promptId : String) (promptData : JVal) (status reason : String) :
    Except String JVal :=
  match jgetE promptData "name" with
  | .error e => Except.error e
  | .ok namev =>
    Except.ok (JVal.vobj [("id", .vstr promptId),
      ("name", jsOr namev (.vstr "Unknown")),
      ("status", .vstr status), ("reason", .vstr reason)])

/-- The part of the `importPrompts` loop body after the validation gate:
overwrite policy, metadata merge, then `savePrompt`. -/
def importStepRest (genId now importedAt : String) (maxPrompts : Int)
    (overwrite merge : Bool) (importSource : JVal)
    (promptId : String) (promptData : JVal) (store : Store) :
    Except String (ImportStep × Store) := do
  let res := getPrompts genId now store
  let current := res.1
  let store1 := res.2
  let existing := (fieldsGet current promptId).getD .vundef
  if truthy existing ∧ ¬ overwrite then
    let d ← importDetail promptId promptData "skipped" "Prompt already exists and overwrite is disabled"
    return (.skippedOne d, store1)
  else
    let mdv ← jgetE promptData "metadata"
    let base := spreadFields [] mdv
    let base := if truthy existing ∧ merge then spreadFields base (jget existing "metadata") else base
    let base := fieldsSet base "imported_at" (.vstr importedAt)
    let base := fieldsSet base "import_source" importSource
    let finalPromptData := JVal.vobj (fieldsSet (spreadFields [] promptData) "metadata" (.vobj base))
    let saved := savePrompt genId now maxPrompts store1 finalPromptData
    if saved.1.success then
      let d ← importDetail promptId promptData "imported" (if truthy existing then "Overwritten" else "New prompt")
      return (.importedOne d, saved.2)
    else
      let reason := match saved.1.error with
        | some e => if e ≠ "" then e else "Save failed"
        | none => "Save failed"
      let d ← importDetail promptId promptData "error" reason
      return (.erroredOne d, saved.2)

/-- One iteration of the `importPrompts` loop (`src/utils.js:1362`).  The
`Except.error` case is an exception that escapes the inner catch (the
catch block itself reads `promptData.name`, which throws again when the
imported value is `null`).  Note the code reads `validation.issues` on a
failed validation, a property `validatePromptData` does not return, so
that branch lands in the inner catch with a `TypeError`. -/
def importStep (genId now importedAt : String) (maxPrompts : Int)
    (overwrite merge validateP : Bool) (importSource : JVal)
    (promptId : String) (promptData : JVal) (store : Store) :
    Except String (ImportStep × Store) :=
  if validateP then
    match validatePromptData promptData with
    | .error _ =>
      -- the TypeError from validating null reaches the inner catch,
      -- whose own detail object throws again on `promptData.name`
      (match jgetE promptData "name" with
        | .error e => Except.error e
        | .ok _ => Except.error "")
    | .ok errs =>
      if ¬ errs.isEmpty then do
        let d ← importDetail promptId promptData "error" "Cannot read properties of undefined reading join"
        return (.erroredOne d, store)
      else importStepRest genId now importedAt maxPrompts overwrite merge importSource
        promptId promptData store
  else importStepRest genId now importedAt maxPrompts overwrite merge importSource
    promptId promptData store

/-- The `importPrompts` loop over `Object.entries(parsedData.prompts)`,
threading the counters, details and store. -/
def importLoop (genId now importedAt : String) (maxPrompts : Int)
    (overwrite merge validateP : Bool) (importSource : JVal) :
    List (String × JVal) → Nat → Nat → Nat → List JVal → Store →
    Except (String × Store) (Nat × Nat × Nat × List JVal × Store)
  | [], imported, skipped, errCount, details, store =>
    .ok (imported, skipped, errCount, details, store)
  | (pid, pdata) :: rest, imported, skipped, errCount, details, store =>
    match importStep genId now importedAt maxPrompts overwrite merge validateP
      importSource pid pdata store with
    | .error e => .error (e, store)
    | .ok (step, store') =>
    match step with
    | .importedOne d =>
      importLoop genId now importedAt maxPrompts overwrite merge validateP importSource
        rest (imported + 1) skipped errCount (details ++ [d]) store'
    | .skippedOne d =>
      importLoop genId now importedAt maxPrompts overwrite merge validateP importSource
        rest imported (skipped + 1) errCount (details ++ [d]) store'
    | .erroredOne d =>
      importLoop genId now importedAt maxPrompts overwrite merge validateP importSource
        rest imported skipped (errCount + 1) (details ++ [d]) store'

/-- `PromptDataManager.importPrompts` (`src/utils.js:1313`).  String
input goes through `JSON.parse`; the payload must carry truthy `version`,
`exported_at` and `prompts` fields; each prompt is validated, merged and
saved, and the aggregate result reports per-record outcomes.  Note the
normal-completion result carries no `error` key at all — only the outer
catch produces one. -/
def importPrompts (genId now importedAt : String) (maxPrompts : Int)
    (store : Store) (importData : JVal) (options : ImportOptions) : ImportResult × Store :=
  let failed := fun (e : String) (st : Store) =>
    (({ success := false, error := some e, imported := 0, skipped := 0, errors := 0,
        totalProcessed := 0, details := [], message := "Import failed: " ++ e } : ImportResult), st)
  let parsed : Except String JVal :=
    match importData with
    | .vstr s =>
      match jsonParse s with
      | some p => .ok p
      | none => .error "Invalid JSON format in import data"
    | .vobj _ => .ok importData
    | .varr _ => .ok importData
    | _ => .error "Invalid import data format - must be JSON string or object"
  match parsed with
  | .error e => failed e store
  | .ok parsedData =>
    if ¬ truthy (jget parsedData "version") ∨ ¬ truthy (jget parsedData "exported_at") ∨
        ¬ truthy (jget parsedData "prompts") then
      failed "Invalid import data structure - missing required fields (version, exported_at, prompts)" store
    else
      let store := if options.createBackup ≠ some false then (getPrompts genId now store).2 else store
      let overwrite := options.overwriteExisting = some true
      let merge := options.mergeMetadata ≠ some false
      let validateP := options.validatePrompts ≠ some false
      match importLoop genId now importedAt maxPrompts overwrite merge validateP
        (jget parsedData "exported_at") (jsEntries (jget parsedData "prompts")) 0 0 0 [] store with
      | .error est => failed est.1 est.2
      | .ok (imported, skipped, errCount, details, store') =>
        let total := imported + skipped + errCount
        ({ success := decide (total > 0) && decide (errCount = 0), error := none,
           imported := imported, skipped := skipped, errors := errCount,
           totalProcessed := total, details := details,
           message := "Import completed: " ++ toString imported ++ " imported, " ++
             toString skipped ++ " skipped, " ++ toString errCount ++ " errors" }, store')

/-- One entry of the diff produced by `generateContentDiff`. -/
structure DiffEntry where
  type : String
  content : String
  lineNumber : Nat
  deriving Repr, DecidableEq

/-- The four-way branch inside the `generateContentDiff` loop over a line
index (empty strings are the out-of-range/falsy lines). -/
def diffEntryFor (i : Nat) (line1 line2 : String) : List DiffEntry :=
  if line1 = line2 then
    if line1 ≠ "" then [{ type := "unchanged", content := line1, lineNumber := i + 1 }] else []
  else if line1 = "" then [{ type := "added", content := line2, lineNumber := i + 1 }]
  else if line2 = "" then [{ type := "removed", content := line1, lineNumber := i + 1 }]
  else [{ type := "removed", content := line1, lineNumber := i + 1 },
        { type := "added", content := line2, lineNumber := i + 1 }]

/-- Tail of the diff loop once the first content has no lines left. -/
def diffTailSecond (i : Nat) : List String → List DiffEntry
  | [] => []
  | l2 :: rest => diffEntryFor i "" l2 ++ diffTailSecond (i + 1) rest

/-- The `generateContentDiff` loop up to `maxLines`, with missing lines
read as the empty string. -/
def diffGo (i : Nat) : List String → List String → List DiffEntry
  | [], lines2 => diffTailSecond i lines2
  | l1 :: rest1, lines2 =>
    diffEntryFor i l1 (lines2.headD "") ++ diffGo (i + 1) rest1 lines2.tail

/-- `PromptDataManager.generateContentDiff` (`src/utils.js:853`): a
positional line-by-line comparison of the two contents. -/
def generateContentDiff (content1 content2 : String) : List DiffEntry :=
  diffGo 0 (jsSplitLines content1) (jsSplitLines content2)

/-- Metadata of a stored prompt record in its validated, fully-populated
form — the shape every record written by `savePrompt` has.  `none`
models a `null` value. -/
structure PromptMeta where
  created_at : String
  last_used : Option String
  favorite : Bool
  usage_count : Int
  tags : List String
  source_preset : Option String
  deriving Repr, DecidableEq

/-- A stored prompt record in its validated, fully-populated form, the
shape the filter and sort functions operate on. -/
structure Prompt where
  id : String
  name : String
  content : String
  role : String
  system_prompt : Bool
  marker : Bool
  injection_position : Int
  injection_depth : Int
  injection_order : Int
  forbid_overrides : Bool
  metadata : PromptMeta
  deriving Repr, DecidableEq

/-- Is an optional string field truthy (present and non-empty)? -/
def truthyStr : Option String → Bool
  | some s => s ≠ ""
  | none => false

/-- The JS idiom `a || b` on an optional string with a fallback. -/
def jsStrOr (o : Option String) (dflt : String) : String :=
  match o with
  | some s => if s ≠ "" then s else dflt
  | none => dflt

/-- The filter specification accepted by `applyFilters`; `none` models an
absent (or `undefined`/`null`) key. -/
structure Filters where
  search : Option String
  role : Option String
  favorite : Option Bool
  tags : Option (List String)
  deriving Repr, DecidableEq

/-- The empty filter specification. -/
def noFilters : Filters := ⟨none, none, none, none⟩

/-- A filter specification carrying only a tags list. -/
def tagsOnly (ts : List String) : Filters := ⟨none, none, none, some ts⟩

/-- The search-filter block of `applyFilters` (`src/utils.js:697`): when
`filters.search` is truthy with a non-blank trim, keep the records whose
lowercased name, content, or a lowercased tag includes the lowercased
trimmed term. -/
def searchStage (filters : Filters) (filtered : List (String × Prompt)) :
    List (String × Prompt) :=
  match filters.search with
  | some s =>
    if s ≠ "" ∧ jsTrim s ≠ "" then
      let searchTerm := jsTrim (jsToLower s)
      filtered.filter (fun ip =>
        jsIncludes (jsToLower ip.2.name) searchTerm ||
        jsIncludes (jsToLower ip.2.content) searchTerm ||
        ip.2.metadata.tags.any (fun tag => jsIncludes (jsToLower tag) searchTerm))
    else filtered
  | none => filtered

/-- The role-filter block of `applyFilters` (`src/utils.js:710`). -/
def roleStage (filters : Filters) (filtered : List (String × Prompt)) :
    List (String × Prompt) :=
  match filters.role with
  | some r =>
    if r ≠ "" ∧ r ≠ "all" then filtered.filter (fun ip => ip.2.role = r) else filtered
  | none => filtered

/-- The favorite-filter block of `applyFilters` (`src/utils.js:717`). -/
def favStage (filters : Filters) (filtered : List (String × Prompt)) :
    List (String × Prompt) :=
  match filters.favorite with
  | some b => filtered.filter (fun ip => ip.2.metadata.favorite = b)
  | none => filtered

/-- The tags-filter block of `applyFilters` (`src/utils.js:724`): keep a
record when at least one listed tag is among its tags
(`filters.tags.some(tag => prompt.metadata.tags.includes(tag))`). -/
def tagsStage (filters : Filters) (filtered : List (String × Prompt)) :
    List (String × Prompt) :=
  match filters.tags with
  | some ts =>
    if ts ≠ [] then
      filtered.filter (fun ip => ts.any (fun t => ip.2.metadata.tags.contains t))
    else filtered
  | none => filtered

/-- `PromptDataManager.applyFilters` (`src/utils.js:694`): the search,
role, favorite and tags filter blocks reassign `filtered` in sequence. -/
def applyFilters (prompts : List (String × Prompt)) (filters : Filters) :
    List (String × Prompt) :=
  tagsStage filters (favStage filters (roleStage filters (searchStage filters prompts)))

/-- Lexicographic (codepoint) order on character lists. -/
def lexLt : List Char → List Char → Bool
  | [], [] => false
  | [], _ :: _ => true
  | _ :: _, [] => false
  | a :: as, b :: bs => a < b || (a = b && lexLt as bs)

/-- Tertiary tie-break of the root collation when two strings agree up to
letter case: at the first differing position the lowercase form sorts
first. -/
def caseTieBreak : List Char → List Char → Int
  | a :: as, b :: bs =>
    if a = b then caseTieBreak as bs
    else if 'a' ≤ a ∧ a ≤ 'z' then -1 else 1
  | _, _ => 0

/-- Models `String.prototype.localeCompare` under the root locale,
restricted to ASCII: primary comparison is codepoint order of the
lowercased strings, and on a primary tie lowercase sorts before
uppercase. -/
def jsLocaleCompare (s t : String) : Int :=
  let ls := (jsToLower s).data
  let lt := (jsToLower t).data
  if lexLt ls lt then -1 else if lexLt lt ls then 1 else caseTieBreak s.data t.data

/-- Models `Array.prototype.sort(cmp)`: a stable sort keeping `a` before
`b` whenever `cmp a b ≤ 0`. -/
def jsSortBy {α : Type} (cmp : α → α → Int) (l : List α) : List α :=
  l.mergeSort (fun a b => cmp a b ≤ 0)

/-- The `latest_used` comparator of `PromptLibraryUI.sortPrompts`
(`src/utils.js:2771`): `last_used || created_at`, newest first; an
invalid date gives `NaN`, which `SortCompare` treats as `0`. -/
def uiLatestUsedCmp (a b : Prompt) : Int :=
  let aUsed := jsStrOr a.metadata.last_used a.metadata.created_at
  let bUsed := jsStrOr b.metadata.last_used b.metadata.created_at
  match jsParseDate aUsed, jsParseDate bUsed with
  | some da, some db => jsDateDiffSign db da
  | _, _ => 0

/-- The `oldest_used` comparator of `PromptLibraryUI.sortPrompts`:
`last_used || created_at`, oldest first. -/
def uiOldestUsedCmp (a b : Prompt) : Int :=
  let aUsed := jsStrOr a.metadata.last_used a.metadata.created_at
  let bUsed := jsStrOr b.metadata.last_used b.metadata.created_at
  match jsParseDate aUsed, jsParseDate bUsed with
  | some da, some db => jsDateDiffSign da db
  | _, _ => 0

/-- The `created` comparator shared by both sort functions: newest
`created_at` first. -/
def createdCmp (a b : Prompt) : Int :=
  match jsParseDate a.metadata.created_at, jsParseDate b.metadata.created_at with
  | some da, some db => jsDateDiffSign db da
  | _, _ => 0

/-- `PromptLibraryUI.sortPrompts` (`src/utils.js:2766`).  Note the
used-date orders fall back to `created_at` when `last_used` is falsy, and
the name order is `a.name.localeCompare(b.name)` without lowercasing. -/
def sortPrompts (prompts : List Prompt) (sortBy : String) : List Prompt :=
  if sortBy = "latest_used" then jsSortBy uiLatestUsedCmp prompts
  else if sortBy = "oldest_used" then jsSortBy uiOldestUsedCmp prompts
  else if sortBy = "name" then jsSortBy (fun a b => jsLocaleCompare a.name b.name) prompts
  else if sortBy = "created" then jsSortBy createdCmp prompts
  else prompts

/-- `new Date(0)`, the Unix epoch, used by `applySorting` for records
lacking a `last_used`. -/
def epochDate : JSDate := ⟨1970, 1, 1, 0, 0, 0, 0⟩

/-- `a.metadata.last_used ? new Date(a.metadata.last_used) : new Date(0)`
from `applySorting`. -/
def lastUsedOrEpoch (p : Prompt) : Option JSDate :=
  match p.metadata.last_used with
  | some s => if s ≠ "" then jsParseDate s else some epochDate
  | none => some epochDate

/-- The `latest_used` comparator of `applySorting` (`src/utils.js:4597`):
missing `last_used` counts as the epoch, latest first. -/
def applyLatestUsedCmp (a b : Prompt) : Int :=
  match lastUsedOrEpoch a, lastUsedOrEpoch b with
  | some da, some db => jsDateDiffSign db da
  | _, _ => 0

/-- The `oldest_used` comparator of `applySorting` (`src/utils.js:4605`):
records without a `last_used` are explicitly pushed to the end, the rest
are oldest first. -/
def applyOldestUsedCmp (a b : Prompt) : Int :=
  if ¬ truthyStr a.metadata.last_used ∧ ¬ truthyStr b.metadata.last_used then 0
  else if ¬ truthyStr a.metadata.last_used then 1
  else if ¬ truthyStr b.metadata.last_used then -1
  else
    match lastUsedOrEpoch a, lastUsedOrEpoch b with
    | some da, some db => jsDateDiffSign da db
    | _, _ => 0

/-- The `name` comparator of `applySorting` (`src/utils.js:4618`):
`a.name.toLowerCase().localeCompare(b.name.toLowerCase())`. -/
def applyNameCmp (a b : Prompt) : Int :=
  jsLocaleCompare (jsToLower a.name) (jsToLower b.name)

/-- Generic `obj[k] = v` on an association list (see `fieldsSet`). -/
def assocSet {α : Type} : List (String × α) → String → α → List (String × α)
  | [], key, v => [(key, v)]
  | (k, w) :: rest, key, v =>
    if k = key then (k, v) :: rest else (k, w) :: assocSet rest key v

/-- The result object of `applySorting`. -/
structure SortResult where
  success : Bool
  sortedPrompts : List (String × Prompt)
  error : Option String
  message : String
  deriving Repr, DecidableEq

/-- `applySorting` (`src/utils.js:4590`): sorts `Object.values(prompts)`
and re-keys the sorted array by each record's `id`. -/
def applySorting (prompts : List (String × Prompt)) (sortBy : String) : SortResult :=
  let promptArray := prompts.map (·.2)
  let sortedArray :=
    if sortBy = "latest_used" then jsSortBy applyLatestUsedCmp promptArray
    else if sortBy = "oldest_used" then jsSortBy applyOldestUsedCmp promptArray
    else if sortBy = "name" then jsSortBy applyNameCmp promptArray
    else if sortBy = "created" then jsSortBy createdCmp promptArray
    else promptArray
  { success := true,
    sortedPrompts := sortedArray.foldl (fun acc p => assocSet acc p.id p) [],
    error := none,
    message := "Sorted " ++ toString sortedArray.length ++ " prompts by " ++ sortBy }

/-- Outcome of one iteration of the `saveCurrentPrompt` loop. -/
inductive PresetStepOut where
  | skippedStep
  | savedStep (rec : JVal)
  | erroredStep (msg : String)
  deriving Repr

/-- One iteration of the `saveCurrentPrompt` loop (`src/utils.js:6288`):
empty or whitespace-only content is skipped, a bad role is recorded as an
error, and otherwise a fresh record is assembled and given to
`savePrompt`.  `gid` models `generatePromptId()` and `nowi` the
per-iteration `new Date().toISOString()`; `presetNameV` is
`currentPreset.name`.  The `Except.error` case is an exception that also
throws inside the catch block (a `null` array element) and so escapes to
the outer catch. -/
def presetPromptStep (gid nowi : String) (maxPrompts : Int) (presetNameV promptName pp : JVal)
    (store : Store) : Except String (PresetStepOut × Store) :=
  match jgetE pp "content" with
  | .error e => .error e
  | .ok content =>
    if ¬ truthy content then .ok (.skippedStep, store)
    else
      match content with
      | .vstr c =>
        if jsTrim c = "" then .ok (.skippedStep, store)
        else
          let role := jget pp "role"
          if ¬ truthy role ∨ ¬ roleIncluded role then
            .ok (.erroredStep ("Invalid role for prompt: " ++
              display (jsOr (jget pp "identifier") (.vstr "unknown"))), store)
          else
            let promptData := JVal.vobj [
              ("id", .vstr gid),
              ("name", jsOr promptName (jsOr (jget pp "name")
                (.vstr ("Prompt from " ++ display presetNameV)))),
              ("content", content),
              ("role", role),
              ("system_prompt", jsOr (jget pp "system_prompt") (.vbool false)),
              ("marker", jsOr (jget pp "marker") (.vbool false)),
              ("injection_position", jsOr (jget pp "injection_position") (.vnum 0)),
              ("injection_depth", jsOr (jget pp "injection_depth") (.vnum 4)),
              ("injection_order", jsOr (jget pp "injection_order") (.vnum 100)),
              ("forbid_overrides", jsOr (jget pp "forbid_overrides") (.vbool false)),
              ("metadata", .vobj [
                ("created_at", .vstr nowi),
                ("last_used", .vnull),
                ("favorite", .vbool false),
                ("usage_count", .vnum 0),
                ("tags", .varr []),
                ("source_preset", jsOr presetNameV (.vstr "Unknown Preset"))])]
            let saved := savePrompt gid nowi maxPrompts store promptData
            if saved.1.success then
              .ok (.savedStep ((saved.1.promptData).getD .vundef), saved.2)
            else
              .ok (.erroredStep ("Failed to save prompt " ++ display (jget pp "identifier") ++
                ": " ++ ((saved.1.error).getD "undefined")), saved.2)
      | _ =>
        -- truthy non-string content: `.trim is not a function`
        .ok (.erroredStep ("Error processing prompt " ++
          display (jsOr (jget pp "identifier") (.vstr "unknown")) ++
          ": presetPrompt.content.trim is not a function"), store)

/-- The `saveCurrentPrompt` loop over the preset prompts, collecting the
saved records and the error messages. -/
def presetLoop (ids nows : Nat → String) (maxPrompts : Int) (presetNameV promptName : JVal) :
    List JVal → Nat → List JVal → List String → Store →
    Except (String × Store) (List JVal × List String × Store)
  | [], _, savedPrompts, errs, store => .ok (savedPrompts, errs, store)
  | pp :: rest, i, savedPrompts, errs, store =>
    match presetPromptStep (ids i) (nows i) maxPrompts presetNameV promptName pp store with
    | .error e => .error (e, store)
    | .ok (out, store') =>
      match out with
      | .skippedStep => presetLoop ids nows maxPrompts presetNameV promptName rest (i + 1)
          savedPrompts errs store'
      | .savedStep rec => presetLoop ids nows maxPrompts presetNameV promptName rest (i + 1)
          (savedPrompts ++ [rec]) errs store'
      | .erroredStep msg => presetLoop ids nows maxPrompts presetNameV promptName rest (i + 1)
          savedPrompts (errs ++ [msg]) store'

/-- The result object of `saveCurrentPrompt`; `errors` is `none` when the
code leaves the key `undefined`. -/
structure SaveCurrentResult where
  success : Bool
  savedPrompts : List JVal
  promptData : Option JVal
  error : Option String
  errors : Option (List String)
  message : String
  deriving Repr

/-- `PromptSaverManager.saveCurrentPrompt` (`src/utils.js:6267`).  The
current preset is the `preset` argument (the value of
`presetIntegrator.getCurrentPreset()`); `ids i`/`nows i` model the
`generatePromptId()` and `new Date().toISOString()` calls of iteration
`i`. -/
def saveCurrentPrompt (ids nows : Nat → String) (maxPrompts : Int) (store : Store)
    (promptName preset : JVal) : SaveCurrentResult × Store :=
  let fail := fun (e : String) (st : Store) =>
    (({ success := false, savedPrompts := [], promptData := none, error := some e,
        errors := none, message := "Failed to save current prompt: " ++ e } : SaveCurrentResult), st)
  if ¬ truthy preset then fail "No current preset available" store
  else
    match jget preset "prompts" with
    | .varr elems =>
      if elems.isEmpty then fail "Current preset has no prompts to save" store
      else
        match presetLoop ids nows maxPrompts (jget preset "name") promptName elems 0 [] [] store with
        | .error est => fail est.1 est.2
        | .ok (savedPrompts, errs, store') =>
          if savedPrompts.isEmpty then
            let errorMessage :=
              if ¬ errs.isEmpty then "No prompts could be saved. Errors: " ++ String.intercalate ", " errs
              else "No valid prompts found to save"
            fail errorMessage store'
          else
            (({ success := true, savedPrompts := savedPrompts,
                promptData := savedPrompts.head?,
                error := none,
                errors := if ¬ errs.isEmpty then some errs else none,
                message := "Successfully saved " ++ toString savedPrompts.length ++
                  (if savedPrompts.length > 1 then " prompts" else " prompt") } : SaveCurrentResult), store')
    | _ => fail "Current preset has no prompts to save" store

/-- A fully-populated record in the canonical field order produced by
`createPromptData`/`repairPromptData`/`savePrompt` — the shape every
record written by the data manager has.  `none` models `null`. -/
structure CanonRecord where
  id : String
  name : String
  content : String
  role : String
  system_prompt : Bool
  marker : Bool
  injection_position : Int
  injection_depth : Int
  injection_order : Int
  forbid_overrides : Bool
  created_at : String
  last_used : Option String
  favorite : Bool
  usage_count : Int
  tags : List String
  source_preset : Option String
  deriving Repr, DecidableEq

def optStrToJVal : Option String → JVal
  | some s => .vstr s
  | none => .vnull

/-- The metadata fields of a canonical record, in the literal order of
`createPromptData`. -/
def CanonRecord.metaFields (c : CanonRecord) : List (String × JVal) :=
  [("created_at", .vstr c.created_at),
   ("last_used", optStrToJVal c.last_used),
   ("favorite", .vbool c.favorite),
   ("usage_count", .vnum c.usage_count),
   ("tags", .varr (c.tags.map JVal.vstr)),
   ("source_preset", optStrToJVal c.source_preset)]

/-- The stored `JVal` form of a canonical record, with `extras` appended
to the metadata (import stamps live there). -/
def CanonRecord.toJValX (c : CanonRecord) (extras : List (String × JVal)) : JVal :=
  .vobj [("id", .vstr c.id),
    ("name", .vstr c.name),
    ("content", .vstr c.content),
    ("role", .vstr c.role),
    ("system_prompt", .vbool c.system_prompt),
    ("marker", .vbool c.marker),
    ("injection_position", .vnum c.injection_position),
    ("injection_depth", .vnum c.injection_depth),
    ("injection_order", .vnum c.injection_order),
    ("forbid_overrides", .vbool c.forbid_overrides),
    ("metadata", .vobj (c.metaFields ++ extras))]

def CanonRecord.toJVal (c : CanonRecord) : JVal := c.toJValX []

/-- A date string in the canonical form `toISOString` emits: it passes
`isValidISODate` and re-rendering its parse reproduces it exactly. -/
def canonIso (s : String) : Bool :=
  match jsParseDate s with
  | some d => isValidISODateStr s && (toISOString d == s)
  | none => false

/-- Well-formedness of a canonical record: exactly the conditions under
which `validatePromptData` accepts it and every field survives the
`x || default` / `typeof` coercions of the data manager unchanged. -/
def CanonRecord.wf (c : CanonRecord) : Bool :=
  c.id ≠ "" && c.name ≠ "" && jsTrim c.name ≠ "" &&
  c.content ≠ "" && jsTrim c.content ≠ "" &&
  (c.role = "user" ∨ c.role = "assistant" ∨ c.role = "system") &&
  canonIso c.created_at &&
  (match c.last_used with
   | some s => s ≠ "" && canonIso s
   | none => true) &&
  decide (0 ≤ c.usage_count) &&
  (match c.source_preset with
   | some s => s ≠ ""
   | none => true) &&
  c.injection_depth ≠ 0 && c.injection_order ≠ 0

/-- A store holding canonical records keyed by their ids. -/
def canonStore (cs : List CanonRecord) : Store :=
  cs.map (fun c => (c.id, c.toJVal))

/-- The import stamps `importPrompts` appends to each record's metadata. -/
def importStamp (importedAt : String) (importSource : JVal) : List (String × JVal) :=
  [("imported_at", .vstr importedAt), ("import_source", importSource)]

/-- The store after re-importing every canonical record: each record
gains the two import stamps and nothing else. -/
def importedStore (importedAt : String) (importSource : JVal) (cs : List CanonRecord) : Store :=
  cs.map (fun c => (c.id, c.toJValX (importStamp importedAt importSource)))

/-- The search condition of `applyFilters` as a pointwise predicate. -/
def searchPred (f : Filters) (p : Prompt) : Bool :=
  match f.search with
  | some s =>
    if s ≠ "" ∧ jsTrim s ≠ "" then
      let searchTerm := jsTrim (jsToLower s)
      jsIncludes (jsToLower p.name) searchTerm ||
      jsIncludes (jsToLower p.content) searchTerm ||
      p.metadata.tags.any (fun tag => jsIncludes (jsToLower tag) searchTerm)
    else true
  | none => true

/-- The role condition of `applyFilters` as a pointwise predicate. -/
def rolePred (f : Filters) (p : Prompt) : Bool :=
  match f.role with
  | some r => if r ≠ "" ∧ r ≠ "all" then p.role = r else true
  | none => true

/-- The favorite condition of `applyFilters` as a pointwise predicate. -/
def favPred (f : Filters) (p : Prompt) : Bool :=
  match f.favorite with
  | some b => p.metadata.favorite = b
  | none => true

/-- The tags condition of `applyFilters` as a pointwise predicate: at
least one of the listed tags is carried by the record. -/
def tagsPred (f : Filters) (p : Prompt) : Bool :=
  match f.tags with
  | some ts => if ts ≠ [] then ts.any (fun t => p.metadata.tags.contains t) else true
  | none => true

/-- A preset prompt as the host supplies it to `saveCurrentPrompt`:
every field optional, `none` modelling an absent key. -/
structure PresetPrompt where
  identifier : Option String
  name : Option String
  content : Option String
  role : Option String
  system_prompt : Option Bool
  marker : Option Bool
  injection_position : Option Int
  injection_depth : Option Int
  injection_order : Option Int
  forbid_overrides : Option Bool
  deriving Repr, DecidableEq

def optToJVal (f : α → JVal) : Option α → JVal
  | some x => f x
  | none => ( .vundef : JVal)

/-- The `JVal` form of a preset prompt (an absent key and an `undefined`
value are indistinguishable to property reads). -/
def PresetPrompt.toJVal (pp : PresetPrompt) : JVal :=
  .vobj [("identifier", optToJVal JVal.vstr pp.identifier),
    ("name", optToJVal JVal.vstr pp.name),
    ("content", optToJVal JVal.vstr pp.content),
    ("role", optToJVal JVal.vstr pp.role),
    ("system_prompt", optToJVal JVal.vbool pp.system_prompt),
    ("marker", optToJVal JVal.vbool pp.marker),
    ("injection_position", optToJVal JVal.vnum pp.injection_position),
    ("injection_depth", optToJVal JVal.vnum pp.injection_depth),
    ("injection_order", optToJVal JVal.vnum pp.injection_order),
    ("forbid_overrides", optToJVal JVal.vbool pp.forbid_overrides)]

/-- Is the content of a preset prompt falsy or whitespace-only (the skip
condition of `saveCurrentPrompt`)? -/
def PresetPrompt.blankContent (pp : PresetPrompt) : Bool :=
  match pp.content with
  | none => true
  | some c => jsTrim c = ""

/-- The name `saveCurrentPrompt` resolves for a preset prompt when no
explicit name is passed (`promptName` is `null`). -/
def PresetPrompt.resolvedName (pp : PresetPrompt) (presetNameV : JVal) : String :=
  match pp.name with
  | some n => if n ≠ "" then n else "Prompt from " ++ display presetNameV
  | none => "Prompt from " ++ display presetNameV

/-- A preset prompt that `saveCurrentPrompt` stores (under a `null`
`promptName`): non-blank content, role `user`, and a resolved name that
survives validation. -/
def PresetPrompt.storable (pp : PresetPrompt) (presetNameV : JVal) : Bool :=
  (match pp.content with
   | some c => jsTrim c ≠ ""
   | none => false) &&
  pp.role = some "user" &&
  jsTrim (pp.resolvedName presetNameV) ≠ ""

/-- The record `saveCurrentPrompt` assembles for preset prompt `pp` with
fresh id `gid` at time `nowi` (with a `null` `promptName`). -/
def presetRecordT (gid nowi : String) (presetNameV : JVal) (pp : PresetPrompt) : JVal :=
  .vobj [("id", .vstr gid),
    ("name", .vstr (pp.resolvedName presetNameV)),
    ("content", optToJVal JVal.vstr pp.content),
    ("role", optToJVal JVal.vstr pp.role),
    ("system_prompt", .vbool (pp.system_prompt.getD false)),
    ("marker", .vbool (pp.marker.getD false)),
    ("injection_position", .vnum (match pp.injection_position with | some n => n | none => 0)),
    ("injection_depth", .vnum (match pp.injection_depth with | some n => if n ≠ 0 then n else 4 | none => 4)),
    ("injection_order", .vnum (match pp.injection_order with | some n => if n ≠ 0 then n else 100 | none => 100)),
    ("forbid_overrides", .vbool (pp.forbid_overrides.getD false)),
    ("metadata", .vobj [
      ("created_at", .vstr nowi),
      ("last_used", .vnull),
      ("favorite", .vbool false),
      ("usage_count", .vnum 0),
      ("tags", .varr []),
      ("source_preset", jsOr presetNameV (.vstr "Unknown Preset"))])]

/-- A completion preset as `getCurrentPreset` returns it: a name and a
prompt list. -/
def mkPreset (presetName : Option String) (pps : List PresetPrompt) : JVal :=
  .vobj [("name", optToJVal JVal.vstr presetName),
    ("prompts", .varr (pps.map PresetPrompt.toJVal))]

/-- A fixed canonical timestamp used by the concrete witnesses. -/
def isoNow : String := "2024-01-01T00:00:00.000Z"

/-- A later canonical timestamp used by the concrete witnesses. -/
def isoLater : String := "2024-06-01T00:00:00.000Z"

/-- Shared well-formed metadata for the concrete record fixtures. -/
def fixtureMeta : PromptMeta :=
  { created_at := "2024-01-02T03:04:05.000Z", last_used := none, favorite := false,
    usage_count := 0, tags := ["a"], source_preset := none }

/-- A record carrying only tag `a`, for the tags-filter analysis. -/
def fixtureTagA : Prompt :=
  { id := "p1", name := "Alpha", content := "hello", role := "user",
    system_prompt := false, marker := false, injection_position := 0,
    injection_depth := 4, injection_order := 100, forbid_overrides := false,
    metadata := fixtureMeta }

/-- A record with role `system`, for the role-filter analysis. -/
def fixtureSystem : Prompt :=
  { fixtureTagA with id := "p2", name := "Sys", role := "system" }

/-- A record named `a`. -/
def fixtureNameLower : Prompt :=
  { fixtureTagA with id := "n1", name := "a" }

/-- A record named `A`, differing from `fixtureNameLower` only in case. -/
def fixtureNameUpper : Prompt :=
  { fixtureTagA with id := "n2", name := "A" }

/-- Metadata of a record never used but created recently. -/
def fixtureMetaRecent : PromptMeta :=
  { fixtureMeta with created_at := "2024-06-01T00:00:00.000Z", last_used := none }

/-- Metadata of a record last used long ago. -/
def fixtureMetaOld : PromptMeta :=
  { fixtureMeta with
    created_at := "2020-01-01T00:00:00.000Z",
    last_used := some "2020-06-01T00:00:00.000Z" }

/-- A record never used but created recently. -/
def fixtureNoLastUsed : Prompt :=
  { fixtureTagA with id := "u1", metadata := fixtureMetaRecent }

/-- A record last used long ago. -/
def fixtureOldUsed : Prompt :=
  { fixtureTagA with id := "u2", metadata := fixtureMetaOld }

/-- A sparse but valid record: only the four required fields. -/
def sparseRecord : JVal :=
  .vobj [("id", .vstr "p1"), ("name", .vstr "A"), ("content", .vstr "hi"),
    ("role", .vstr "user")]

/-- A concrete well-formed canonical record. -/
def sampleCanon : CanonRecord :=
  { id := "p1", name := "Test", content := "hello", role := "user",
    system_prompt := false, marker := false, injection_position := 0,
    injection_depth := 4, injection_order := 100, forbid_overrides := false,
    created_at := "2024-01-02T03:04:05.678Z", last_used := none, favorite := false,
    usage_count := 0, tags := ["a"], source_preset := none }

/-- A second canonical record with a fresh id. -/
def sampleCanonB : CanonRecord := { sampleCanon with id := "b" }

/-- A store whose single entry is a stored `null`. -/
def nullStore : Store := [("a", JVal.vnull)]

/-- A structurally valid import payload containing no prompts. -/
def emptyImportPayload : JVal :=
  .vobj [("version", .vstr "1.0.0"), ("exported_at", .vstr "x"), ("prompts", .vobj [])]

/-- A preset prompt that `saveCurrentPrompt` should store. -/
def fixturePresetGood : PresetPrompt :=
  { identifier := none, name := some "My prompt", content := some "hello",
    role := some "user", system_prompt := none, marker := none,
    injection_position := none, injection_depth := none, injection_order := none,
    forbid_overrides := none }

/-- A preset prompt with whitespace-only content. -/
def fixturePresetBlank : PresetPrompt :=
  { fixturePresetGood with name := none, content := some "   " }

/-! ## Helper lemmas -/

/-- Membership in `applyFilters` is the pointwise conjunction of the four
filter predicates. -/
theorem mem_applyFilters {prompts : List (String × Prompt)} {f : Filters}
    {ip : String × Prompt} :
    ip ∈ applyFilters prompts f ↔
      ip ∈ prompts ∧ searchPred f ip.2 = true ∧ rolePred f ip.2 = true ∧
        favPred f ip.2 = true ∧ tagsPred f ip.2 = true := by
  have hs : ∀ l, ip ∈ searchStage f l ↔ ip ∈ l ∧ searchPred f ip.2 = true := by
    intro l
    cases h : f.search with
    | none => simp [searchStage, searchPred, h]
    | some s =>
      simp only [searchStage, searchPred, h]
      split_ifs <;> simp [List.mem_filter]
  have hr : ∀ l, ip ∈ roleStage f l ↔ ip ∈ l ∧ rolePred f ip.2 = true := by
    intro l
    cases h : f.role with
    | none => simp [roleStage, rolePred, h]
    | some r =>
      simp only [roleStage, rolePred, h]
      split_ifs <;> simp [List.mem_filter]
  have hf : ∀ l, ip ∈ favStage f l ↔ ip ∈ l ∧ favPred f ip.2 = true := by
    intro l
    cases h : f.favorite with
    | none => simp [favStage, favPred, h]
    | some b => simp [favStage, favPred, h, List.mem_filter]
  have ht : ∀ l, ip ∈ tagsStage f l ↔ ip ∈ l ∧ tagsPred f ip.2 = true := by
    intro l
    cases h : f.tags with
    | none => simp [tagsStage, tagsPred, h]
    | some ts =>
      simp only [tagsStage, tagsPred, h]
      split_ifs <;> simp [List.mem_filter]
  rw [applyFilters, ht, hf, hr, hs]
  tauto

/-- Every entry of a self-diff is an `unchanged` entry. -/
theorem diffGo_self_unchanged (l : List String) : ∀ (i : Nat),
    ∀ e ∈ diffGo i l l, e.type = "unchanged" := by
  induction l with
  | nil => intro i e he; simp [diffGo, diffTailSecond] at he
  | cons h t ih =>
    intro i e he
    simp only [diffGo, List.headD_cons, List.tail_cons] at he
    rcases List.mem_append.mp he with hm | hm
    · by_cases hh : h = ""
      · subst hh; simp [diffEntryFor] at hm
      · simp [diffEntryFor, hh] at hm
        subst hm; rfl
    · exact ih (i + 1) e hm

end PromptSaver

namespace PromptSaver

/-- Every element of a `vstr`-mapped list is a string. -/
theorem allStrings_map_vstr (l : List String) : allStrings (l.map JVal.vstr) = true := by
  induction l with
  | nil => rfl
  | cons h t ih => simp [allStrings, isStr, ih]

/-- Unpack a canonical ISO date string. -/
theorem canonIso_spec {s : String} (h : canonIso s = true) :
    ∃ d, jsParseDate s = some d ∧ isValidISODateStr s = true ∧ toISOString d = s := by
  unfold canonIso at h
  split at h
  · next d hd =>
    simp at h
    exact ⟨d, hd, h.1, h.2⟩
  · exact absurd h (by simp)

/-- A canonical ISO date string is non-empty. -/
theorem canonIso_ne_empty {s : String} (h : canonIso s = true) : s ≠ "" := by
  rintro rfl
  exact absurd h (by decide)

/-- `fixDateString` is the identity on canonical ISO date strings. -/
theorem canonIso_fix {s : String} (h : canonIso s = true) :
    fixDateString (.vstr s) = .vstr s := by
  obtain ⟨d, hparse, _, hprint⟩ := canonIso_spec h
  simp [fixDateString, truthy, canonIso_ne_empty h, hparse, hprint]

/-- `validatePromptData` accepts every well-formed canonical record,
whatever extra metadata entries it carries. -/
theorem validate_canon (c : CanonRecord) (extras : List (String × JVal))
    (hc : c.wf = true) : validatePromptData (c.toJValX extras) = .ok [] := by
  simp only [CanonRecord.wf, Bool.and_eq_true, decide_eq_true_eq] at hc
  obtain ⟨⟨⟨⟨⟨⟨⟨⟨⟨⟨⟨hid, hn1⟩, hn2⟩, hc1⟩, hc2⟩, hrole⟩, hca⟩, hlu⟩, huc⟩, hsp⟩, hdep⟩, hord⟩ := hc
  obtain ⟨dca, hparseca, hvalidca, hprintca⟩ := canonIso_spec hca
  have hrolene : c.role ≠ "" := by rcases hrole with h | h | h <;> simp [h]
  have hnotneg : ¬ c.usage_count < 0 := Int.not_lt.mpr huc
  cases hl : c.last_used with
  | none =>
    rw [hl] at hlu
    cases hs : c.source_preset with
    | none =>
      simp [validatePromptData, CanonRecord.toJValX, CanonRecord.metaFields, jgetE, jget,
        fieldsGet, truthy, isStr, isBool, isNum, isArr, isUndef, isNull, roleIncluded,
        isNegNum, isStringArray, isValidISODate, allStrings_map_vstr, optStrToJVal,
        hid, hn1, hn2, hc1, hc2, hrole, hrolene, hvalidca, hnotneg, asStr, hl, hs]
    | some sp =>
      rw [hs] at hsp
      simp only [decide_eq_true_eq] at hsp
      simp [validatePromptData, CanonRecord.toJValX, CanonRecord.metaFields, jgetE, jget,
        fieldsGet, truthy, isStr, isBool, isNum, isArr, isUndef, isNull, roleIncluded,
        isNegNum, isStringArray, isValidISODate, allStrings_map_vstr, optStrToJVal,
        hid, hn1, hn2, hc1, hc2, hrole, hrolene, hvalidca, hnotneg, asStr, hl, hs, hsp]
  | some lu =>
    rw [hl] at hlu
    simp only [Bool.and_eq_true, decide_eq_true_eq] at hlu
    obtain ⟨dlu, hparselu, hvalidlu, hprintlu⟩ := canonIso_spec hlu.2
    cases hs : c.source_preset with
    | none =>
      simp [validatePromptData, CanonRecord.toJValX, CanonRecord.metaFields, jgetE, jget,
        fieldsGet, truthy, isStr, isBool, isNum, isArr, isUndef, isNull, roleIncluded,
        isNegNum, isStringArray, isValidISODate, allStrings_map_vstr, optStrToJVal,
        hid, hn1, hn2, hc1, hc2, hrole, hrolene, hvalidca, hnotneg, asStr, hl, hs, hlu.1,
        hvalidlu]
    | some sp =>
      rw [hs] at hsp
      simp only [decide_eq_true_eq] at hsp
      simp [validatePromptData, CanonRecord.toJValX, CanonRecord.metaFields, jgetE, jget,
        fieldsGet, truthy, isStr, isBool, isNum, isArr, isUndef, isNull, roleIncluded,
        isNegNum, isStringArray, isValidISODate, allStrings_map_vstr, optStrToJVal,
        hid, hn1, hn2, hc1, hc2, hrole, hrolene, hvalidca, hnotneg, asStr, hl, hs, hsp, hlu.1,
        hvalidlu]

/-! ## Claim theorems -/

/-- C8: for every content string `s`, `generateContentDiff s s` contains
zero `added` and zero `removed` entries. -/
theorem c8_diff_identical (s : String) :
    ((generateContentDiff s s).filter (fun e => e.type = "added")).length = 0 ∧
    ((generateContentDiff s s).filter (fun e => e.type = "removed")).length = 0 := by
  have h := diffGo_self_unchanged (jsSplitLines s) 0
  constructor <;>
  · rw [List.length_eq_zero, List.filter_eq_nil_iff]
    intro e he
    have := h e he
    simp [generateContentDiff] at he ⊢
    simp [this]

/-- C1 (counterexample): the claim says the tags filter keeps exactly the
records containing ALL listed tags; filtering on tags `a, b` keeps a
record that carries only tag `a`. -/
theorem c1_tags_filter_counterexample :
    applyFilters [("p1", fixtureTagA)] (tagsOnly ["a", "b"]) = [("p1", fixtureTagA)] ∧
    ¬ ("b" ∈ fixtureTagA.metadata.tags) := by
  constructor
  · decide
  · decide

/-- C1 (amended): with a non-empty tags list (and no other filter),
`applyFilters` returns exactly the records carrying at least one of the
listed tags. -/
theorem c1_tags_filter_any (prompts : List (String × Prompt)) (ts : List String)
    (hts : ts ≠ []) (id : String) (p : Prompt) :
    (id, p) ∈ applyFilters prompts (tagsOnly ts) ↔
      (id, p) ∈ prompts ∧ ∃ t ∈ ts, t ∈ p.metadata.tags := by
  rw [mem_applyFilters]
  simp [searchPred, rolePred, favPred, tagsPred, tagsOnly, hts, List.any_eq_true]

/-- C1 witness: the amended theorem at a concrete record and tag list. -/
theorem c1_tags_filter_any_witness :
    (["a", "b"] ≠ ([] : List String)) ∧
    ((("p1", fixtureTagA) ∈ applyFilters [("p1", fixtureTagA)] (tagsOnly ["a", "b"])) ↔
      (("p1", fixtureTagA) ∈ [("p1", fixtureTagA)] ∧
        ∃ t ∈ ["a", "b"], t ∈ fixtureTagA.metadata.tags)) :=
  ⟨by decide, c1_tags_filter_any [("p1", fixtureTagA)] ["a", "b"] (by decide) "p1" fixtureTagA⟩

/-- C7: membership in `applyFilters` is the logical AND of the four
individual filter conditions, and the role filter `system` keeps only
records with role `system`. -/
theorem c7_filters_conjunction (prompts : List (String × Prompt)) (f : Filters)
    (id : String) (p : Prompt) :
    ((id, p) ∈ applyFilters prompts f ↔
      (id, p) ∈ prompts ∧ searchPred f p = true ∧ rolePred f p = true ∧
        favPred f p = true ∧ tagsPred f p = true) ∧
    (f.role = some "system" → (id, p) ∈ applyFilters prompts f → p.role = "system") := by
  refine ⟨mem_applyFilters, fun hrole hmem => ?_⟩
  have h := mem_applyFilters.mp hmem
  have hr := h.2.2.1
  simp only [rolePred, hrole] at hr
  simpa using hr

/-- C7 witness: the role-`system` filter at a concrete record. -/
theorem c7_filters_conjunction_witness : fixtureSystem.role = "system" :=
  (c7_filters_conjunction [("p2", fixtureSystem)] ⟨none, some "system", none, none⟩
    "p2" fixtureSystem).2 rfl (by decide)

/-- C3 (counterexample): a record carrying only the four required fields
is reported valid, yet `repairPromptData` does not return an equivalent
record: it returns a larger record whose `metadata.created_at` is the
repair-time clock value, so even two repairs of the same record differ. -/
theorem c3_repair_counterexample :
    validatePromptData sparseRecord = .ok [] ∧
    repairPromptData "gen" isoNow sparseRecord ≠ some sparseRecord ∧
    repairPromptData "gen" isoNow sparseRecord ≠ repairPromptData "gen" isoLater sparseRecord := by
  refine ⟨rfl, fun h => ?_, fun h => ?_⟩
  · have h2 := congrArg (fun o => truthy (jget (o.getD .vundef) "metadata")) h
    exact absurd h2 (by decide)
  · have h2 := congrArg
      (fun o => asStr (jget (jget (o.getD .vundef) "metadata") "created_at")) h
    exact absurd h2 (by decide)

/-- C3 (amended): on a well-formed fully-populated canonical record,
`repairPromptData` is the identity. -/
theorem c3_repair_identity_canonical (c : CanonRecord) (gid now : String)
    (hc : c.wf = true) : repairPromptData gid now c.toJVal = some c.toJVal := by
  have hval := validate_canon c [] hc
  simp only [CanonRecord.wf, Bool.and_eq_true, decide_eq_true_eq] at hc
  obtain ⟨⟨⟨⟨⟨⟨⟨⟨⟨⟨⟨hid, hn1⟩, hn2⟩, hc1⟩, hc2⟩, hrole⟩, hca⟩, hlu⟩, huc⟩, hsp⟩, hdep⟩, hord⟩ := hc
  simp only [CanonRecord.toJVal, CanonRecord.toJValX, CanonRecord.metaFields,
    List.append_nil] at hval ⊢
  have hfnull : fixDateString JVal.vnull = JVal.vnull := rfl
  cases hl : c.last_used with
  | none =>
    cases hs : c.source_preset with
    | none =>
      simp only [hl, hs, optStrToJVal] at hval
      simp [repairPromptData, jget, fieldsGet, jgetOpt, jsOr, truthy, isStr, isBool, isNum,
        isArr, roleIncluded, optStrToJVal, hfnull, canonIso_fix hca,
        canonIso_ne_empty hca, hid, hn1, hc1, hrole, hl, hs, hval]
    | some sp =>
      rw [hs] at hsp
      simp only [decide_eq_true_eq] at hsp
      simp only [hl, hs, optStrToJVal] at hval
      simp [repairPromptData, jget, fieldsGet, jgetOpt, jsOr, truthy, isStr, isBool, isNum,
        isArr, roleIncluded, optStrToJVal, hfnull, canonIso_fix hca,
        canonIso_ne_empty hca, hid, hn1, hc1, hrole, hl, hs, hsp, hval]
  | some lu =>
    rw [hl] at hlu
    simp only [Bool.and_eq_true, decide_eq_true_eq] at hlu
    cases hs : c.source_preset with
    | none =>
      simp only [hl, hs, optStrToJVal] at hval
      simp [repairPromptData, jget, fieldsGet, jgetOpt, jsOr, truthy, isStr, isBool, isNum,
        isArr, roleIncluded, optStrToJVal, hfnull, canonIso_fix hca,
        canonIso_ne_empty hca, canonIso_fix hlu.2, canonIso_ne_empty hlu.2,
        hid, hn1, hc1, hrole, hl, hs, hval, hlu.1]
    | some sp =>
      rw [hs] at hsp
      simp only [decide_eq_true_eq] at hsp
      simp only [hl, hs, optStrToJVal] at hval
      simp [repairPromptData, jget, fieldsGet, jgetOpt, jsOr, truthy, isStr, isBool, isNum,
        isArr, roleIncluded, optStrToJVal, hfnull, canonIso_fix hca,
        canonIso_ne_empty hca, canonIso_fix hlu.2, canonIso_ne_empty hlu.2,
        hid, hn1, hc1, hrole, hl, hs, hsp, hval, hlu.1]

/-- C3 witness: the amended repair identity at a concrete record. -/
theorem c3_repair_identity_canonical_witness :
    sampleCanon.wf = true ∧
    repairPromptData "gen" isoNow sampleCanon.toJVal = some sampleCanon.toJVal :=
  ⟨by decide, c3_repair_identity_canonical sampleCanon "gen" isoNow (by decide)⟩

/-- A value that validates with no errors is truthy (it is an object). -/
theorem validate_ok_truthy {v : JVal} (h : validatePromptData v = .ok []) :
    truthy v = true := by
  cases v with
  | vobj fields => rfl
  | vnull => exact absurd h (by simp [validatePromptData, jgetE])
  | vundef => exact absurd h (by simp [validatePromptData, jgetE])
  | vstr s => exact absurd h (by simp [validatePromptData, jgetE, jget, truthy, isStr,
      isUndef, isNull, isBool, isNum, isArr, roleIncluded, isNegNum, isStringArray])
  | vnum n => exact absurd h (by simp [validatePromptData, jgetE, jget, truthy, isStr,
      isUndef, isNull, isBool, isNum, isArr, roleIncluded, isNegNum, isStringArray])
  | vbool b => exact absurd h (by simp [validatePromptData, jgetE, jget, truthy, isStr,
      isUndef, isNull, isBool, isNum, isArr, roleIncluded, isNegNum, isStringArray])
  | varr elems => exact absurd h (by simp [validatePromptData, jgetE, jget, truthy, isStr,
      isUndef, isNull, isBool, isNum, isArr, roleIncluded, isNegNum, isStringArray])

/-- The `getPrompts` loop is the identity on a store whose values all
validate cleanly. -/
theorem getPromptsGo_all_valid (g n : String) (entries : List (String × JVal))
    (valid store : Store) (h : ∀ kv ∈ entries, validatePromptData kv.2 = .ok []) :
    getPromptsGo g n entries valid store = (true, valid ++ entries, store) := by
  induction entries generalizing valid with
  | nil => simp [getPromptsGo]
  | cons kv rest ih =>
    obtain ⟨k, v⟩ := kv
    have hv := h (k, v) (by simp)
    rw [getPromptsGo, hv]
    simp only [List.isEmpty_nil, if_pos rfl]
    rw [ih (valid ++ [(k, v)]) (fun kv hkv => h kv (by simp [hkv]))]
    simp

/-- `getPrompts` returns an all-valid store unchanged. -/
theorem getPrompts_all_valid {g n : String} {store : Store}
    (h : ∀ kv ∈ store, validatePromptData kv.2 = .ok []) :
    getPrompts g n store = (store, store) := by
  rw [getPrompts, getPromptsGo_all_valid g n store [] store h]
  simp

/-- `fieldsSet` keeps the length when the key is present and appends one
entry otherwise. -/
theorem fieldsSet_length (l : List (String × JVal)) (k : String) (v : JVal) :
    (fieldsSet l k v).length = if (fieldsGet l k).isSome then l.length else l.length + 1 := by
  induction l with
  | nil => simp [fieldsSet, fieldsGet]
  | cons kv rest ih =>
    obtain ⟨k1, v1⟩ := kv
    by_cases hk : k1 = k <;> simp [fieldsSet, fieldsGet, hk, ih] <;> split_ifs <;> rfl

/-- `createPromptData` returns a well-formed canonical record unchanged. -/
theorem createPromptData_canon (c : CanonRecord) (g n : String) (hc : c.wf = true) :
    createPromptData g n c.toJVal = .ok c.toJVal := by
  simp only [CanonRecord.wf, Bool.and_eq_true, decide_eq_true_eq] at hc
  obtain ⟨⟨⟨⟨⟨⟨⟨⟨⟨⟨⟨hid, hn1⟩, hn2⟩, hc1⟩, hc2⟩, hrole⟩, hca⟩, hlu⟩, huc⟩, hsp⟩, hdep⟩, hord⟩ := hc
  have hrolene : c.role ≠ "" := by rcases hrole with h | h | h <;> simp [h]
  simp only [CanonRecord.toJVal, CanonRecord.toJValX, CanonRecord.metaFields, List.append_nil]
  cases hl : c.last_used with
  | none =>
    cases hs : c.source_preset with
    | none =>
      simp [createPromptData, jgetE, jget, fieldsGet, jgetOpt, jsOr, truthy, spreadFields,
        fieldsSet, optStrToJVal, hid, hn1, hc1, hrolene, canonIso_ne_empty hca]
      omega
    | some sp =>
      rw [hs] at hsp
      simp only [decide_eq_true_eq] at hsp
      simp [createPromptData, jgetE, jget, fieldsGet, jgetOpt, jsOr, truthy, spreadFields,
        fieldsSet, optStrToJVal, hid, hn1, hc1, hrolene, canonIso_ne_empty hca, hsp]
      omega
  | some lu =>
    rw [hl] at hlu
    simp only [Bool.and_eq_true, decide_eq_true_eq] at hlu
    cases hs : c.source_preset with
    | none =>
      simp [createPromptData, jgetE, jget, fieldsGet, jgetOpt, jsOr, truthy, spreadFields,
        fieldsSet, optStrToJVal, hid, hn1, hc1, hrolene, canonIso_ne_empty hca, hlu.1]
      omega
    | some sp =>
      rw [hs] at hsp
      simp only [decide_eq_true_eq] at hsp
      simp [createPromptData, jgetE, jget, fieldsGet, jgetOpt, jsOr, truthy, spreadFields,
        fieldsSet, optStrToJVal, hid, hn1, hc1, hrolene, canonIso_ne_empty hca, hsp, hlu.1]
      omega

/-- A successful association-list lookup comes from a member. -/
theorem fieldsGet_mem {l : List (String × JVal)} {k : String} {v : JVal}
    (h : fieldsGet l k = some v) : (k, v) ∈ l := by
  induction l with
  | nil => simp [fieldsGet] at h
  | cons kv rest ih =>
    obtain ⟨k1, v1⟩ := kv
    by_cases hk : k1 = k
    · subst hk
      simp [fieldsGet] at h
      simp [h]
    · simp [fieldsGet, hk] at h
      simp [ih h]

/-- What `savePrompt` does with a well-formed canonical record on an
all-valid store: the record passes completion and validation unchanged,
and only the capacity check decides between failure and an in-place
write. -/
theorem savePrompt_canon_eq (g n : String) (maxP : Int) (store : Store) (c : CanonRecord)
    (hstore : ∀ kv ∈ store, validatePromptData kv.2 = .ok []) (hc : c.wf = true) :
    savePrompt g n maxP store c.toJVal =
      if (store.length : Int) ≥ maxP ∧ ¬ truthy ((fieldsGet store c.id).getD .vundef) then
        ({ success := false, promptData := none,
           error := some ("Storage limit reached. Maximum " ++ toString maxP ++ " prompts allowed."),
           message := "Failed to save prompt" }, store)
      else
        ({ success := true, promptData := some c.toJVal, error := none,
           message := "Prompt saved successfully" }, fieldsSet store c.id c.toJVal) := by
  have hval : validatePromptData c.toJVal = .ok [] := validate_canon c [] hc
  have hcr := createPromptData_canon c g n hc
  have hid : asStr (jget c.toJVal "id") = c.id := by
    simp [CanonRecord.toJVal, CanonRecord.toJValX, jget, fieldsGet, asStr]
  rw [savePrompt, hcr]
  simp only [hval, List.isEmpty_nil, Bool.not_true, not_false_eq_true, if_neg,
    getPrompts_all_valid hstore, hid]
  simp

/-- C10 (counterexample): with `max_prompts = 1` and a store holding one
`null` entry, saving a fresh record succeeds and the store ends up with 2
entries — the capped-count invariant fails as stated. -/
theorem c10_cap_counterexample :
    nullStore.length ≤ 1 ∧
    (savePrompt "gen" isoNow 1 nullStore sampleCanonB.toJVal).1.success = true ∧
    (savePrompt "gen" isoNow 1 nullStore sampleCanonB.toJVal).2.length = 2 := by
  refine ⟨by decide, by decide, by decide⟩

/-- C10 (amended): on a store whose values all validate, `savePrompt`
preserves the cap: the store never grows beyond `maxP`; at the cap a
fresh id fails and leaves the store untouched, while an existing id
overwrites in place without changing the count. -/
theorem c10_cap_invariant (g n : String) (maxP : Int) (store : Store) (c : CanonRecord)
    (hstore : ∀ kv ∈ store, validatePromptData kv.2 = .ok []) (hc : c.wf = true) :
    ((store.length : Int) ≤ maxP → (((savePrompt g n maxP store c.toJVal).2).length : Int) ≤ maxP) ∧
    ((store.length : Int) = maxP → fieldsGet store c.id = none →
      (savePrompt g n maxP store c.toJVal).1.success = false ∧
      (savePrompt g n maxP store c.toJVal).2 = store) ∧
    (∀ w, fieldsGet store c.id = some w →
      (savePrompt g n maxP store c.toJVal).1.success = true ∧
      (savePrompt g n maxP store c.toJVal).2 = fieldsSet store c.id c.toJVal ∧
      (savePrompt g n maxP store c.toJVal).2.length = store.length) := by
  rw [savePrompt_canon_eq g n maxP store c hstore hc]
  refine ⟨?_, ?_, ?_⟩
  · intro hlen
    split_ifs with hcond
    · exact hlen
    · rw [fieldsSet_length]
      cases hget : (fieldsGet store c.id) with
      | some w => simp [hget]; exact hlen
      | none =>
        simp [hget]
        have : ¬ (store.length : Int) ≥ maxP := by
          intro hge
          exact hcond ⟨hge, by simp [hget, truthy]⟩
        omega
  · intro hlen hget
    rw [if_pos ⟨le_of_eq hlen.symm, by simp [hget, truthy]⟩]
    exact ⟨rfl, rfl⟩
  · intro w hw
    have hwv := hstore (c.id, w) (fieldsGet_mem hw)
    have htr : truthy w = true := validate_ok_truthy hwv
    rw [if_neg (by simp [hw, htr])]
    exact ⟨rfl, rfl, by rw [fieldsSet_length]; simp [hw]⟩

/-- C10 witness: overwriting an existing id at the cap on a concrete
store. -/
theorem c10_cap_invariant_witness :
    (savePrompt "g" isoNow 1 (canonStore [sampleCanon]) sampleCanon.toJVal).1.success = true ∧
    (savePrompt "g" isoNow 1 (canonStore [sampleCanon]) sampleCanon.toJVal).2 =
      fieldsSet (canonStore [sampleCanon]) sampleCanon.id sampleCanon.toJVal ∧
    (savePrompt "g" isoNow 1 (canonStore [sampleCanon]) sampleCanon.toJVal).2.length =
      (canonStore [sampleCanon]).length :=
  (c10_cap_invariant "g" isoNow 1 (canonStore [sampleCanon]) sampleCanon
    (by
      intro kv hkv
      simp only [canonStore, List.map_cons, List.map_nil, List.mem_singleton] at hkv
      subst hkv
      rfl)
    (by decide)).2.2 sampleCanon.toJVal rfl

/-- Character order as naturals. -/
theorem char_le_iff {a b : Char} : a ≤ b ↔ a.toNat ≤ b.toNat := by
  rw [Char.le_def]; rfl

/-- Characters with equal codepoints are equal. -/
theorem char_toNat_inj {a b : Char} (h : a.toNat = b.toNat) : a = b :=
  Char.eq_of_val_eq (UInt32.ext h)

/-- `Char.ofNat` round-trips below the surrogate range. -/
theorem charOfNat_toNat (n : Nat) (h : n < 55296) : (Char.ofNat n).toNat = n := by
  unfold Char.ofNat
  split
  · next hv => simp [Char.toNat, Char.ofNatAux, UInt32.toNat]
  · next hv => exact absurd (Or.inl h) hv

/-- Lowercasing a lowercase letter is the identity. -/
theorem lower_fix_low {c : Char} (h : 'a' ≤ c ∧ c ≤ 'z') : jsCharToLower c = c := by
  unfold jsCharToLower
  rw [if_neg]
  rintro ⟨h1, h2⟩
  rw [char_le_iff] at *
  have : ('a' : Char).toNat = 97 := by decide
  have : ('Z' : Char).toNat = 90 := by decide
  omega

/-- Lowercasing an uppercase letter adds 32 to the codepoint. -/
theorem lower_upper_toNat {c : Char} (h : 'A' ≤ c ∧ c ≤ 'Z') :
    (jsCharToLower c).toNat = c.toNat + 32 := by
  unfold jsCharToLower
  rw [if_pos h]
  have hz : c.toNat ≤ 90 := by
    have := h.2; rw [char_le_iff] at this; simpa using this
  exact charOfNat_toNat _ (by omega)

/-- An uppercase letter is not a lowercase letter. -/
theorem upper_not_low {c : Char} (h : 'A' ≤ c ∧ c ≤ 'Z') : ¬ ('a' ≤ c ∧ c ≤ 'z') := by
  rintro ⟨h1, _⟩
  have h2 := h.2
  rw [char_le_iff] at h1 h2
  have : ('a' : Char).toNat = 97 := by decide
  have : ('Z' : Char).toNat = 90 := by decide
  omega

/-- If two distinct characters lowercase to the same thing and the first
is a lowercase letter, the second is not. -/
theorem lower_eq_not_low {a b : Char} (h : jsCharToLower a = jsCharToLower b)
    (hne : a ≠ b) (hla : 'a' ≤ a ∧ a ≤ 'z') : ¬ ('a' ≤ b ∧ b ≤ 'z') := by
  intro hlb
  rw [lower_fix_low hla, lower_fix_low hlb] at h
  exact hne h

/-- If two distinct characters lowercase to the same thing and the first
is not a lowercase letter, the second is. -/
theorem lower_eq_low_of_not_low {a b : Char} (h : jsCharToLower a = jsCharToLower b)
    (hne : a ≠ b) (hna : ¬ ('a' ≤ a ∧ a ≤ 'z')) : 'a' ≤ b ∧ b ≤ 'z' := by
  have hcA : ('A' : Char).toNat = 65 := by decide
  have hcZ : ('Z' : Char).toNat = 90 := by decide
  have hca : ('a' : Char).toNat = 97 := by decide
  have hcz : ('z' : Char).toNat = 122 := by decide
  by_cases hua : 'A' ≤ a ∧ a ≤ 'Z'
  · by_cases hub : 'A' ≤ b ∧ b ≤ 'Z'
    · exfalso
      apply hne
      apply char_toNat_inj
      have ha := lower_upper_toNat hua
      have hb := lower_upper_toNat hub
      have := congrArg Char.toNat h
      omega
    · have hb : jsCharToLower b = b := by unfold jsCharToLower; rw [if_neg hub]
      rw [hb] at h
      have ha := lower_upper_toNat hua
      have h1 := hua.1
      have h2 := hua.2
      rw [char_le_iff] at h1 h2
      have hcc := congrArg Char.toNat h
      constructor <;> rw [char_le_iff] <;> omega
  · exfalso
    have ha : jsCharToLower a = a := by unfold jsCharToLower; rw [if_neg hua]
    rw [ha] at h
    by_cases hub : 'A' ≤ b ∧ b ≤ 'Z'
    · apply hna
      have hb := lower_upper_toNat hub
      have h1 := hub.1
      have h2 := hub.2
      rw [char_le_iff] at h1 h2
      have hcc := congrArg Char.toNat h
      constructor <;> rw [char_le_iff] <;> omega
    · have hb : jsCharToLower b = b := by unfold jsCharToLower; rw [if_neg hub]
      rw [hb] at h
      exact hne h

/-- `lexLt` is transitive. -/
theorem lexLt_trans : ∀ {a b c : List Char},
    lexLt a b = true → lexLt b c = true → lexLt a c = true := by
  intro a
  induction a with
  | nil =>
    intro b c h1 h2
    cases b with
    | nil => exact absurd h1 (by simp [lexLt])
    | cons y ys =>
      cases c with
      | nil => exact absurd h2 (by simp [lexLt])
      | cons z zs => simp [lexLt]
  | cons x xs ih =>
    intro b c h1 h2
    cases b with
    | nil => exact absurd h1 (by simp [lexLt])
    | cons y ys =>
      cases c with
      | nil => exact absurd h2 (by simp [lexLt])
      | cons z zs =>
        simp only [lexLt, Bool.or_eq_true, Bool.and_eq_true, decide_eq_true_eq] at h1 h2 ⊢
        rcases h1 with h1 | ⟨rfl, h1⟩
        · rcases h2 with h2 | ⟨rfl, h2⟩
          · exact Or.inl (lt_trans h1 h2)
          · exact Or.inl h1
        · rcases h2 with h2 | ⟨rfl, h2⟩
          · exact Or.inl h2
          · exact Or.inr ⟨rfl, ih h1 h2⟩

/-- Two lists neither of which is `lexLt` the other are equal. -/
theorem lexLt_eq_of_not : ∀ {a b : List Char},
    lexLt a b = false → lexLt b a = false → a = b := by
  intro a
  induction a with
  | nil =>
    intro b h1 _
    cases b with
    | nil => rfl
    | cons y ys => exact absurd h1 (by simp [lexLt])
  | cons x xs ih =>
    intro b h1 h2
    cases b with
    | nil => exact absurd h2 (by simp [lexLt])
    | cons y ys =>
      simp only [lexLt, Bool.or_eq_false_iff, Bool.and_eq_false_iff,
        decide_eq_false_iff_not] at h1 h2
      have hxy : x = y := le_antisymm (not_lt.mp h2.1) (not_lt.mp h1.1)
      subst hxy
      rcases h1.2 with h | h
      · exact absurd rfl h
      · rcases h2.2 with h' | h'
        · exact absurd rfl h'
        · rw [ih h h']

/-- `caseTieBreak` of a list with itself is `0`. -/
theorem ctb_self : ∀ l : List Char, caseTieBreak l l = 0 := by
  intro l
  induction l with
  | nil => rfl
  | cons x xs ih => simp [caseTieBreak, ih]

/-- `caseTieBreak` is transitive across lists with equal lowercasings. -/
theorem ctb_trans : ∀ {x y z : List Char},
    x.map jsCharToLower = y.map jsCharToLower →
    y.map jsCharToLower = z.map jsCharToLower →
    caseTieBreak x y ≤ 0 → caseTieBreak y z ≤ 0 → caseTieBreak x z ≤ 0 := by
  intro x
  induction x with
  | nil =>
    intro y z hxy hyz h1 h2
    cases y with
    | nil =>
      cases z with
      | nil => simp [caseTieBreak]
      | cons c cs => simp at hyz
    | cons b bs => simp at hxy
  | cons a as ih =>
    intro y z hxy hyz h1 h2
    cases y with
    | nil => simp at hxy
    | cons b bs =>
      cases z with
      | nil => simp at hyz
      | cons c cs =>
        simp only [List.map_cons, List.cons.injEq] at hxy hyz
        by_cases hab : a = b
        · subst hab
          rw [caseTieBreak, if_pos rfl] at h1
          by_cases hbc : a = c
          · subst hbc
            rw [caseTieBreak, if_pos rfl] at h2 ⊢
            exact ih hxy.2 hyz.2 h1 h2
          · rw [caseTieBreak, if_neg hbc] at h2 ⊢
            exact h2
        · rw [caseTieBreak, if_neg hab] at h1
          have hla : 'a' ≤ a ∧ a ≤ 'z' := by
            by_contra hna
            rw [if_neg hna] at h1
            omega
          rw [if_pos hla] at h1
          by_cases hbc : b = c
          · subst hbc
            rw [caseTieBreak, if_neg hab, if_pos hla]
            omega
          · exfalso
            rw [caseTieBreak, if_neg hbc] at h2
            have hnb := lower_eq_not_low hxy.1 hab hla
            rw [if_neg hnb] at h2
            omega

/-- `caseTieBreak` is total across lists with equal lowercasings. -/
theorem ctb_total : ∀ {x y : List Char},
    x.map jsCharToLower = y.map jsCharToLower →
    caseTieBreak x y ≤ 0 ∨ caseTieBreak y x ≤ 0 := by
  intro x
  induction x with
  | nil =>
    intro y hxy
    cases y with
    | nil => simp [caseTieBreak]
    | cons b bs => simp at hxy
  | cons a as ih =>
    intro y hxy
    cases y with
    | nil => simp at hxy
    | cons b bs =>
      simp only [List.map_cons, List.cons.injEq] at hxy
      by_cases hab : a = b
      · subst hab
        rw [caseTieBreak, if_pos rfl, caseTieBreak, if_pos rfl]
        exact ih hxy.2
      · by_cases hla : 'a' ≤ a ∧ a ≤ 'z'
        · left
          rw [caseTieBreak, if_neg hab, if_pos hla]
          omega
        · right
          have hlb := lower_eq_low_of_not_low hxy.1 hab hla
          rw [caseTieBreak, if_neg (Ne.symm hab), if_pos hlb]
          omega

/-- `lexLt` is irreflexive. -/
theorem lexLt_irrefl : ∀ l : List Char, lexLt l l = false := by
  intro l
  induction l with
  | nil => rfl
  | cons x xs ih => simp [lexLt, ih]

/-- The root-collation comparison is transitive. -/
theorem jsLC_le_trans (x y z : String) (h1 : jsLocaleCompare x y ≤ 0)
    (h2 : jsLocaleCompare y z ≤ 0) : jsLocaleCompare x z ≤ 0 := by
  unfold jsLocaleCompare at h1 h2 ⊢
  by_cases hxy : lexLt (jsToLower x).data (jsToLower y).data = true
  · by_cases hyz : lexLt (jsToLower y).data (jsToLower z).data = true
    · rw [if_pos (lexLt_trans hxy hyz)]
      omega
    · rw [if_neg hyz] at h2
      by_cases hzy : lexLt (jsToLower z).data (jsToLower y).data = true
      · rw [if_pos hzy] at h2
        omega
      · have heq := lexLt_eq_of_not (Bool.not_eq_true _ ▸ hyz)
          (Bool.not_eq_true _ ▸ hzy)
        rw [if_pos (heq ▸ hxy)]
        omega
  · rw [if_neg hxy] at h1
    by_cases hyx : lexLt (jsToLower y).data (jsToLower x).data = true
    · rw [if_pos hyx] at h1
      omega
    · have heqxy := lexLt_eq_of_not (Bool.not_eq_true _ ▸ hxy)
        (Bool.not_eq_true _ ▸ hyx)
      rw [if_neg hyx] at h1
      by_cases hyz : lexLt (jsToLower y).data (jsToLower z).data = true
      · rw [if_pos (heqxy ▸ hyz)]
        omega
      · rw [if_neg hyz] at h2
        by_cases hzy : lexLt (jsToLower z).data (jsToLower y).data = true
        · rw [if_pos hzy] at h2
          omega
        · rw [if_neg hzy] at h2
          have heqyz := lexLt_eq_of_not (Bool.not_eq_true _ ▸ hyz)
            (Bool.not_eq_true _ ▸ hzy)
          have heqxz : (jsToLower x).data = (jsToLower z).data := heqxy.trans heqyz
          rw [if_neg (by rw [heqxz]; simp [lexLt_irrefl]),
            if_neg (by rw [heqxz]; simp [lexLt_irrefl])]
          have hmapxy : x.data.map jsCharToLower = y.data.map jsCharToLower := heqxy
          have hmapyz : y.data.map jsCharToLower = z.data.map jsCharToLower := heqyz
          exact ctb_trans hmapxy hmapyz h1 h2

/-- The root-collation comparison is total. -/
theorem jsLC_le_total (x y : String) :
    jsLocaleCompare x y ≤ 0 ∨ jsLocaleCompare y x ≤ 0 := by
  unfold jsLocaleCompare
  by_cases hxy : lexLt (jsToLower x).data (jsToLower y).data = true
  · left
    rw [if_pos hxy]
    omega
  · by_cases hyx : lexLt (jsToLower y).data (jsToLower x).data = true
    · right
      rw [if_pos hyx]
      omega
    · have heq := lexLt_eq_of_not (Bool.not_eq_true _ ▸ hxy) (Bool.not_eq_true _ ▸ hyx)
      have hmap : x.data.map jsCharToLower = y.data.map jsCharToLower := heq
      rw [if_neg hxy, if_neg hyx, if_neg hyx, if_neg hxy]
      rcases ctb_total hmap with h | h
      · exact Or.inl h
      · exact Or.inr h

/-- A stable JS sort with a transitive and total comparator produces a
pairwise-ordered list. -/
theorem jsSortBy_pairwise {α : Type} (cmp : α → α → Int) (l : List α)
    (htrans : ∀ a b c, cmp a b ≤ 0 → cmp b c ≤ 0 → cmp a c ≤ 0)
    (htotal : ∀ a b, cmp a b ≤ 0 ∨ cmp b a ≤ 0) :
    List.Pairwise (fun a b => cmp a b ≤ 0) (jsSortBy cmp l) := by
  have h := @List.sorted_mergeSort _ (fun a b => decide (cmp a b ≤ 0))
    (fun a b c hab hbc => by
      simp only [decide_eq_true_eq] at *
      exact htrans a b c hab hbc)
    (fun a b => by
      simp only [Bool.or_eq_true, decide_eq_true_eq]
      exact htotal a b) l
  simpa [jsSortBy] using h

/-- A stable JS sort restricted to lists whose members satisfy `P`, with
the comparator transitive and total on `P`. -/
theorem jsSortBy_pairwise_on {α : Type} (P : α → Prop) (cmp : α → α → Int) (l : List α)
    (hl : ∀ x ∈ l, P x)
    (htrans : ∀ a b c, P a → P b → P c → cmp a b ≤ 0 → cmp b c ≤ 0 → cmp a c ≤ 0)
    (htotal : ∀ a b, P a → P b → cmp a b ≤ 0 ∨ cmp b a ≤ 0) :
    List.Pairwise (fun a b => cmp a b ≤ 0) (jsSortBy cmp l) := by
  have hmap : List.map Subtype.val (l.attach.mergeSort
      (fun a b => decide (cmp a.val b.val ≤ 0))) =
      (List.map Subtype.val l.attach).mergeSort (fun a b => decide (cmp a b ≤ 0)) :=
    List.map_mergeSort (fun a _ b _ => rfl)
  have hsor := @List.sorted_mergeSort _ (fun (a b : {x // x ∈ l}) => decide (cmp a.val b.val ≤ 0))
    (fun a b c hab hbc => by
      simp only [decide_eq_true_eq] at *
      exact htrans a.val b.val c.val (hl _ a.2) (hl _ b.2) (hl _ c.2) hab hbc)
    (fun a b => by
      simp only [Bool.or_eq_true, decide_eq_true_eq]
      exact htotal a.val b.val (hl _ a.2) (hl _ b.2)) l.attach
  have hps : List.Pairwise (fun a b => cmp a b ≤ 0)
      (List.map Subtype.val (l.attach.mergeSort (fun a b => decide (cmp a.val b.val ≤ 0)))) := by
    rw [List.pairwise_map]
    exact hsor.imp (by simp)
  rw [hmap, List.attach_map_subtype_val] at hps
  simpa [jsSortBy] using hps

/-- Lowercasing is idempotent on characters. -/
theorem jsCharToLower_idem (c : Char) :
    jsCharToLower (jsCharToLower c) = jsCharToLower c := by
  by_cases h : 'A' ≤ c ∧ c ≤ 'Z'
  · have ht := lower_upper_toNat h
    have h1 := h.1
    have h2 := h.2
    rw [char_le_iff] at h1 h2
    have hcA : ('A' : Char).toNat = 65 := by decide
    have hcZ : ('Z' : Char).toNat = 90 := by decide
    have hca : ('a' : Char).toNat = 97 := by decide
    have hcz : ('z' : Char).toNat = 122 := by decide
    apply lower_fix_low
    constructor <;> rw [char_le_iff] <;> omega
  · have hfix : jsCharToLower c = c := by unfold jsCharToLower; rw [if_neg h]
    simp [hfix]

/-- Lowercasing is idempotent on strings. -/
theorem jsToLower_idem (s : String) : jsToLower (jsToLower s) = jsToLower s := by
  simp [jsToLower, List.map_map, Function.comp_def, jsCharToLower_idem]

/-- `lexLt` is asymmetric. -/
theorem lexLt_asymm {a b : List Char} (h : lexLt a b = true) : lexLt b a = false := by
  by_contra hc
  have hba : lexLt b a = true := by
    cases hh : lexLt b a
    · exact absurd hh hc
    · rfl
  have := lexLt_trans h hba
  rw [lexLt_irrefl] at this
  exact absurd this (by simp)

/-- A non-positive name comparison means the second lowercased name is
not lexicographically below the first. -/
theorem applyNameCmp_le_not_lt {a b : Prompt} (h : applyNameCmp a b ≤ 0) :
    lexLt (jsToLower b.name).data (jsToLower a.name).data = false := by
  unfold applyNameCmp jsLocaleCompare at h
  rw [jsToLower_idem, jsToLower_idem] at h
  by_cases hab : lexLt (jsToLower a.name).data (jsToLower b.name).data = true
  · exact lexLt_asymm hab
  · rw [if_neg hab] at h
    by_cases hba : lexLt (jsToLower b.name).data (jsToLower a.name).data = true
    · rw [if_pos hba] at h
      omega
    · exact Bool.not_eq_true _ ▸ hba

/-- Appending with `assocSet` when the key is fresh. -/
theorem assocSet_fresh {α : Type} (acc : List (String × α)) (k : String) (v : α)
    (h : ∀ kv ∈ acc, kv.1 ≠ k) : assocSet acc k v = acc ++ [(k, v)] := by
  induction acc with
  | nil => rfl
  | cons kv rest ih =>
    obtain ⟨k1, v1⟩ := kv
    have hk1 : k1 ≠ k := h (k1, v1) (by simp)
    simp only [assocSet, if_neg hk1, List.cons_append, List.cons.injEq, true_and]
    exact ih (fun kv hkv => h kv (by simp [hkv]))

/-- Re-keying a list of records with pairwise distinct ids. -/
theorem foldl_assocSet_nodup (l : List Prompt) (hnd : (l.map Prompt.id).Nodup) :
    l.foldl (fun acc p => assocSet acc p.id p) [] = l.map (fun p => (p.id, p)) := by
  suffices h : ∀ acc : List (String × Prompt),
      (∀ p ∈ l, ∀ kv ∈ acc, kv.1 ≠ p.id) →
      l.foldl (fun acc p => assocSet acc p.id p) acc = acc ++ l.map (fun p => (p.id, p)) by
    simpa using h [] (by simp)
  induction l with
  | nil => intro acc _; simp
  | cons p rest ih =>
    intro acc hdisj
    simp only [List.map_cons, List.nodup_cons] at hnd
    simp only [List.foldl_cons]
    rw [assocSet_fresh acc p.id p (hdisj p (by simp))]
    rw [ih hnd.2 (acc ++ [(p.id, p)]) ?_]
    · simp
    · intro q hq kv hkv
      rcases List.mem_append.mp hkv with hkv | hkv
      · exact hdisj q (by simp [hq]) kv hkv
      · simp at hkv
        subst hkv
        simp only [ne_eq]
        intro hcontra
        exact hnd.1 (hcontra ▸ List.mem_map_of_mem Prompt.id hq)

unseal List.merge List.mergeSort in
/-- C5 (counterexample): `sortPrompts` compares names without
lowercasing, so the records named `a` and `A` are not treated as equal —
the comparator is negative and the stable sort reorders them. -/
theorem c5_name_sort_counterexample :
    jsLocaleCompare fixtureNameLower.name fixtureNameUpper.name ≠ 0 ∧
    sortPrompts [fixtureNameUpper, fixtureNameLower] "name" =
      [fixtureNameLower, fixtureNameUpper] := by
  constructor
  · decide
  · decide

/-- C5 (amended): `applySorting`'s name comparator treats names that
agree after lowercasing as equal, is negative exactly when the first
lowercased name is lexicographically below the second, and the name sort
emits the records keyed by id in ascending lowercased-name order. -/
theorem c5_name_sort_case_insensitive :
    (∀ a b : Prompt, jsToLower a.name = jsToLower b.name → applyNameCmp a b = 0) ∧
    (∀ a b : Prompt, applyNameCmp a b < 0 ↔
      lexLt (jsToLower a.name).data (jsToLower b.name).data = true) ∧
    (∀ prompts : List (String × Prompt),
      ((prompts.map (fun ip => ip.2)).map Prompt.id).Nodup →
      ∃ sorted : List Prompt,
        (applySorting prompts "name").sortedPrompts = sorted.map (fun p => (p.id, p)) ∧
        sorted.Perm (prompts.map (fun ip => ip.2)) ∧
        List.Pairwise
          (fun a b => lexLt (jsToLower b.name).data (jsToLower a.name).data = false) sorted) := by
  refine ⟨?_, ?_, ?_⟩
  · intro a b h
    unfold applyNameCmp jsLocaleCompare
    rw [h]
    simp [lexLt_irrefl, ctb_self]
  · intro a b
    unfold applyNameCmp jsLocaleCompare
    rw [jsToLower_idem, jsToLower_idem]
    by_cases hab : lexLt (jsToLower a.name).data (jsToLower b.name).data = true
    · simp [hab]
    · rw [if_neg hab]
      by_cases hba : lexLt (jsToLower b.name).data (jsToLower a.name).data = true
      · simp [hba, hab]
      · rw [if_neg hba]
        have heq := lexLt_eq_of_not (Bool.not_eq_true _ ▸ hab) (Bool.not_eq_true _ ▸ hba)
        rw [heq, ctb_self]
        simp [lexLt_irrefl]
  · intro prompts hnd
    have htrans : ∀ a b c : Prompt, applyNameCmp a b ≤ 0 → applyNameCmp b c ≤ 0 →
        applyNameCmp a c ≤ 0 :=
      fun a b c => jsLC_le_trans (jsToLower a.name) (jsToLower b.name) (jsToLower c.name)
    have htotal : ∀ a b : Prompt, applyNameCmp a b ≤ 0 ∨ applyNameCmp b a ≤ 0 :=
      fun a b => jsLC_le_total (jsToLower a.name) (jsToLower b.name)
    have hpair := jsSortBy_pairwise applyNameCmp (prompts.map (fun ip => ip.2)) htrans htotal
    have hperm : (jsSortBy applyNameCmp (prompts.map (fun ip => ip.2))).Perm
        (prompts.map (fun ip => ip.2)) := List.mergeSort_perm _ _
    refine ⟨jsSortBy applyNameCmp (prompts.map (fun ip => ip.2)), ?_, hperm, ?_⟩
    · have hnd2 : ((jsSortBy applyNameCmp (prompts.map (fun ip => ip.2))).map Prompt.id).Nodup :=
        ((hperm.map Prompt.id).nodup_iff).mpr hnd
      simp only [applySorting]
      norm_num
      exact foldl_assocSet_nodup _ hnd2
    · exact hpair.imp (fun h => applyNameCmp_le_not_lt h)

/-- C5 witness: the amended statement at two concrete records differing
only in name case. -/
theorem c5_name_sort_case_insensitive_witness :
    applyNameCmp fixtureNameLower fixtureNameUpper = 0 ∧
    (∃ sorted : List Prompt,
      (applySorting [("n2", fixtureNameUpper), ("n1", fixtureNameLower)] "name").sortedPrompts =
        sorted.map (fun p => (p.id, p)) ∧
      sorted.Perm ([("n2", fixtureNameUpper), ("n1", fixtureNameLower)].map (fun ip => ip.2)) ∧
      List.Pairwise
        (fun a b => lexLt (jsToLower b.name).data (jsToLower a.name).data = false) sorted) :=
  ⟨c5_name_sort_case_insensitive.1 fixtureNameLower fixtureNameUpper (by decide),
   c5_name_sort_case_insensitive.2.2 [("n2", fixtureNameUpper), ("n1", fixtureNameLower)]
     (by decide)⟩

/-- Sign comparison versus key order. -/
theorem jsDateDiffSign_le {x y : JSDate} : jsDateDiffSign x y ≤ 0 ↔ x.key ≤ y.key := by
  unfold jsDateDiffSign
  split_ifs <;> omega

/-- A record without a truthy `last_used` is assigned the epoch. -/
theorem lastUsedOrEpoch_missing {p : Prompt} (ht : truthyStr p.metadata.last_used = false) :
    lastUsedOrEpoch p = some epochDate := by
  unfold lastUsedOrEpoch
  cases hl : p.metadata.last_used with
  | none => rfl
  | some s =>
    rw [hl] at ht
    simp [truthyStr] at ht
    simp [ht]

/-- A record with a truthy, parseable `last_used` is assigned its parse. -/
theorem lastUsed_parse {p : Prompt} (ht : truthyStr p.metadata.last_used = true)
    (hp : (jsParseDate ((p.metadata.last_used).getD "")).isSome = true) :
    ∃ d, lastUsedOrEpoch p = some d ∧
      jsParseDate ((p.metadata.last_used).getD "") = some d := by
  cases hl : p.metadata.last_used with
  | none => rw [hl] at ht; simp [truthyStr] at ht
  | some s =>
    rw [hl] at ht hp
    simp only [truthyStr, decide_eq_true_eq] at ht
    simp only [Option.getD_some] at hp
    obtain ⟨d, hd⟩ := Option.isSome_iff_exists.mp hp
    refine ⟨d, ?_, hd⟩
    unfold lastUsedOrEpoch
    rw [hl]
    simp [ht, hd]

/-- Case characterization of the `oldest_used` comparator. -/
theorem applyOldestUsedCmp_eq (a b : Prompt) :
    applyOldestUsedCmp a b =
      if truthyStr a.metadata.last_used then
        (if truthyStr b.metadata.last_used then
          (match lastUsedOrEpoch a, lastUsedOrEpoch b with
           | some da, some db => jsDateDiffSign da db
           | _, _ => 0)
         else -1)
      else (if truthyStr b.metadata.last_used then 1 else 0) := by
  unfold applyOldestUsedCmp
  cases ha : truthyStr a.metadata.last_used <;>
    cases hb : truthyStr b.metadata.last_used <;> simp [ha, hb]

/-- Both records missing a `last_used`: the `oldest_used` comparator ties. -/
theorem cmpO_mm {a b : Prompt} (ha : truthyStr a.metadata.last_used = false)
    (hb : truthyStr b.metadata.last_used = false) : applyOldestUsedCmp a b = 0 := by
  rw [applyOldestUsedCmp_eq, ha, hb]
  simp

/-- First record missing a `last_used`: the `oldest_used` comparator
pushes it back. -/
theorem cmpO_mp {a b : Prompt} (ha : truthyStr a.metadata.last_used = false)
    (hb : truthyStr b.metadata.last_used = true) : applyOldestUsedCmp a b = 1 := by
  rw [applyOldestUsedCmp_eq, ha, hb]
  simp

/-- Second record missing a `last_used`: the `oldest_used` comparator
pulls the first forward. -/
theorem cmpO_pm {a b : Prompt} (ha : truthyStr a.metadata.last_used = true)
    (hb : truthyStr b.metadata.last_used = false) : applyOldestUsedCmp a b = -1 := by
  rw [applyOldestUsedCmp_eq, ha, hb]
  simp

/-- Both records used: the `oldest_used` comparator compares the parsed
dates, oldest first. -/
theorem cmpO_pp {a b : Prompt} {da db : JSDate}
    (ha : truthyStr a.metadata.last_used = true)
    (hb : truthyStr b.metadata.last_used = true)
    (hda : lastUsedOrEpoch a = some da) (hdb : lastUsedOrEpoch b = some db) :
    applyOldestUsedCmp a b = jsDateDiffSign da db := by
  rw [applyOldestUsedCmp_eq, ha, hb]
  simp [hda, hdb]

unseal List.merge List.mergeSort in
/-- C4 (counterexample): the claim says never-used records land after
all used ones under MRU and before them under LRU.  `sortPrompts` under
`latest_used` puts a never-used but recently created record FIRST (it
falls back to `created_at`), and `applySorting` under `oldest_used` puts
the never-used record at the END, not the beginning. -/
theorem c4_sort_counterexample :
    truthyStr fixtureNoLastUsed.metadata.last_used = false ∧
    truthyStr fixtureOldUsed.metadata.last_used = true ∧
    sortPrompts [fixtureOldUsed, fixtureNoLastUsed] "latest_used" =
      [fixtureNoLastUsed, fixtureOldUsed] ∧
    (applySorting [("u1", fixtureNoLastUsed), ("u2", fixtureOldUsed)] "oldest_used").sortedPrompts =
      [("u2", fixtureOldUsed), ("u1", fixtureNoLastUsed)] := by
  refine ⟨by decide, by decide, by decide, by decide⟩

/-- C4 (amended): in `applySorting`, under both used-date orders every
record lacking a truthy `last_used` is placed together at the END of the
output — after every record that has one (for `latest_used`, after every
record whose `last_used` parses to a post-epoch date). -/
theorem c4_missing_last_used_at_end :
    (∀ prompts : List (String × Prompt),
      (∀ p ∈ prompts.map (fun ip => ip.2), truthyStr p.metadata.last_used = true →
        (jsParseDate ((p.metadata.last_used).getD "")).isSome = true) →
      ((prompts.map (fun ip => ip.2)).map Prompt.id).Nodup →
      ∃ sorted : List Prompt,
        (applySorting prompts "oldest_used").sortedPrompts = sorted.map (fun p => (p.id, p)) ∧
        sorted.Perm (prompts.map (fun ip => ip.2)) ∧
        List.Pairwise (fun a b => truthyStr b.metadata.last_used = true →
          truthyStr a.metadata.last_used = true) sorted) ∧
    (∀ prompts : List (String × Prompt),
      (∀ p ∈ prompts.map (fun ip => ip.2), truthyStr p.metadata.last_used = true →
        ∃ d, jsParseDate ((p.metadata.last_used).getD "") = some d ∧ epochDate.key < d.key) →
      ((prompts.map (fun ip => ip.2)).map Prompt.id).Nodup →
      ∃ sorted : List Prompt,
        (applySorting prompts "latest_used").sortedPrompts = sorted.map (fun p => (p.id, p)) ∧
        sorted.Perm (prompts.map (fun ip => ip.2)) ∧
        List.Pairwise (fun a b => truthyStr b.metadata.last_used = true →
          truthyStr a.metadata.last_used = true) sorted) := by
  constructor
  · intro prompts hgood hnd
    have htrans : ∀ a b c : Prompt,
        (truthyStr a.metadata.last_used = true →
          (jsParseDate ((a.metadata.last_used).getD "")).isSome = true) →
        (truthyStr b.metadata.last_used = true →
          (jsParseDate ((b.metadata.last_used).getD "")).isSome = true) →
        (truthyStr c.metadata.last_used = true →
          (jsParseDate ((c.metadata.last_used).getD "")).isSome = true) →
        applyOldestUsedCmp a b ≤ 0 → applyOldestUsedCmp b c ≤ 0 →
        applyOldestUsedCmp a c ≤ 0 := by
      intro a b c pa pb pc h1 h2
      cases ta : truthyStr a.metadata.last_used <;>
        cases tb : truthyStr b.metadata.last_used <;>
        cases tc : truthyStr c.metadata.last_used
      · rw [cmpO_mm ta tc]
      · rw [cmpO_mp tb tc] at h2
        omega
      · rw [cmpO_mp ta tb] at h1
        omega
      · rw [cmpO_mp ta tb] at h1
        omega
      · rw [cmpO_pm ta tc]
        omega
      · rw [cmpO_mp tb tc] at h2
        omega
      · rw [cmpO_pm ta tc]
        omega
      · obtain ⟨da, hda, _⟩ := lastUsed_parse ta (pa ta)
        obtain ⟨db, hdb, _⟩ := lastUsed_parse tb (pb tb)
        obtain ⟨dc, hdc, _⟩ := lastUsed_parse tc (pc tc)
        rw [cmpO_pp ta tb hda hdb] at h1
        rw [cmpO_pp tb tc hdb hdc] at h2
        rw [cmpO_pp ta tc hda hdc]
        rw [jsDateDiffSign_le] at h1 h2 ⊢
        omega
    have htotal : ∀ a b : Prompt,
        (truthyStr a.metadata.last_used = true →
          (jsParseDate ((a.metadata.last_used).getD "")).isSome = true) →
        (truthyStr b.metadata.last_used = true →
          (jsParseDate ((b.metadata.last_used).getD "")).isSome = true) →
        applyOldestUsedCmp a b ≤ 0 ∨ applyOldestUsedCmp b a ≤ 0 := by
      intro a b pa pb
      cases ta : truthyStr a.metadata.last_used <;>
        cases tb : truthyStr b.metadata.last_used
      · rw [cmpO_mm ta tb]
        omega
      · rw [cmpO_mp ta tb, cmpO_pm tb ta]
        omega
      · rw [cmpO_pm ta tb]
        omega
      · obtain ⟨da, hda, _⟩ := lastUsed_parse ta (pa ta)
        obtain ⟨db, hdb, _⟩ := lastUsed_parse tb (pb tb)
        rw [cmpO_pp ta tb hda hdb, cmpO_pp tb ta hdb hda]
        rw [jsDateDiffSign_le, jsDateDiffSign_le]
        omega
    have hpair := jsSortBy_pairwise_on
      (fun p : Prompt => truthyStr p.metadata.last_used = true →
        (jsParseDate ((p.metadata.last_used).getD "")).isSome = true)
      applyOldestUsedCmp (prompts.map (fun ip => ip.2)) hgood htrans htotal
    have hperm : (jsSortBy applyOldestUsedCmp (prompts.map (fun ip => ip.2))).Perm
        (prompts.map (fun ip => ip.2)) := List.mergeSort_perm _ _
    refine ⟨jsSortBy applyOldestUsedCmp (prompts.map (fun ip => ip.2)), ?_, hperm, ?_⟩
    · have hnd2 : ((jsSortBy applyOldestUsedCmp (prompts.map (fun ip => ip.2))).map
          Prompt.id).Nodup := ((hperm.map Prompt.id).nodup_iff).mpr hnd
      simp only [applySorting]
      norm_num
      exact foldl_assocSet_nodup _ hnd2
    · refine hpair.imp ?_
      intro a b hab htb
      by_contra hta
      have hta' : truthyStr a.metadata.last_used = false := by
        cases h : truthyStr a.metadata.last_used
        · rfl
        · exact absurd h hta
      rw [cmpO_mp hta' htb] at hab
      omega
  · intro prompts hgood hnd
    have hsome : ∀ p : Prompt,
        (truthyStr p.metadata.last_used = true →
          ∃ d, jsParseDate ((p.metadata.last_used).getD "") = some d ∧ epochDate.key < d.key) →
        ∃ d, lastUsedOrEpoch p = some d := by
      intro p hp
      cases ht : truthyStr p.metadata.last_used
      · exact ⟨epochDate, lastUsedOrEpoch_missing ht⟩
      · obtain ⟨d, hd, _⟩ := hp ht
        obtain ⟨d2, hd2, _⟩ := lastUsed_parse ht (by simp [hd])
        exact ⟨d2, hd2⟩
    have htrans : ∀ a b c : Prompt,
        (truthyStr a.metadata.last_used = true →
          ∃ d, jsParseDate ((a.metadata.last_used).getD "") = some d ∧ epochDate.key < d.key) →
        (truthyStr b.metadata.last_used = true →
          ∃ d, jsParseDate ((b.metadata.last_used).getD "") = some d ∧ epochDate.key < d.key) →
        (truthyStr c.metadata.last_used = true →
          ∃ d, jsParseDate ((c.metadata.last_used).getD "") = some d ∧ epochDate.key < d.key) →
        applyLatestUsedCmp a b ≤ 0 → applyLatestUsedCmp b c ≤ 0 →
        applyLatestUsedCmp a c ≤ 0 := by
      intro a b c pa pb pc h1 h2
      obtain ⟨da, hda⟩ := hsome a pa
      obtain ⟨db, hdb⟩ := hsome b pb
      obtain ⟨dc, hdc⟩ := hsome c pc
      unfold applyLatestUsedCmp at h1 h2 ⊢
      rw [hda, hdb] at h1
      rw [hdb, hdc] at h2
      rw [hda, hdc]
      simp only [jsDateDiffSign_le] at h1 h2 ⊢
      omega
    have htotal : ∀ a b : Prompt,
        (truthyStr a.metadata.last_used = true →
          ∃ d, jsParseDate ((a.metadata.last_used).getD "") = some d ∧ epochDate.key < d.key) →
        (truthyStr b.metadata.last_used = true →
          ∃ d, jsParseDate ((b.metadata.last_used).getD "") = some d ∧ epochDate.key < d.key) →
        applyLatestUsedCmp a b ≤ 0 ∨ applyLatestUsedCmp b a ≤ 0 := by
      intro a b pa pb
      obtain ⟨da, hda⟩ := hsome a pa
      obtain ⟨db, hdb⟩ := hsome b pb
      unfold applyLatestUsedCmp
      rw [hda, hdb]
      simp only [jsDateDiffSign_le]
      omega
    have hpair := jsSortBy_pairwise_on
      (fun p : Prompt => truthyStr p.metadata.last_used = true →
        ∃ d, jsParseDate ((p.metadata.last_used).getD "") = some d ∧ epochDate.key < d.key)
      applyLatestUsedCmp (prompts.map (fun ip => ip.2)) hgood htrans htotal
    have hperm : (jsSortBy applyLatestUsedCmp (prompts.map (fun ip => ip.2))).Perm
        (prompts.map (fun ip => ip.2)) := List.mergeSort_perm _ _
    refine ⟨jsSortBy applyLatestUsedCmp (prompts.map (fun ip => ip.2)), ?_, hperm, ?_⟩
    · have hnd2 : ((jsSortBy applyLatestUsedCmp (prompts.map (fun ip => ip.2))).map
          Prompt.id).Nodup := ((hperm.map Prompt.id).nodup_iff).mpr hnd
      simp only [applySorting]
      norm_num
      exact foldl_assocSet_nodup _ hnd2
    · refine List.Pairwise.imp_of_mem ?_ hpair
      intro a b ha hb hab htb
      by_contra hta
      have hta' : truthyStr a.metadata.last_used = false := by
        cases h : truthyStr a.metadata.last_used
        · rfl
        · exact absurd h hta
      have hpb := hgood b (hperm.subset hb)
      obtain ⟨db, hdb, hdbe⟩ := hpb htb
      obtain ⟨db2, hdb2, hdb3⟩ := lastUsed_parse htb (by simp [hdb])
      rw [hdb] at hdb3
      obtain rfl : db = db2 := by injection hdb3
      unfold applyLatestUsedCmp at hab
      rw [lastUsedOrEpoch_missing hta', hdb2] at hab
      simp only [jsDateDiffSign_le] at hab
      omega

/-- C4 witness: the amended statement at a concrete two-record store. -/
theorem c4_missing_last_used_at_end_witness :
    ∃ sorted : List Prompt,
      (applySorting [("u1", fixtureNoLastUsed), ("u2", fixtureOldUsed)] "oldest_used").sortedPrompts =
        sorted.map (fun p => (p.id, p)) ∧
      sorted.Perm ([("u1", fixtureNoLastUsed), ("u2", fixtureOldUsed)].map (fun ip => ip.2)) ∧
      List.Pairwise (fun a b => truthyStr b.metadata.last_used = true →
        truthyStr a.metadata.last_used = true) sorted :=
  c4_missing_last_used_at_end.1 [("u1", fixtureNoLastUsed), ("u2", fixtureOldUsed)]
    (by decide) (by decide)

/-- A string with a non-empty left part is non-empty. -/
theorem append_left_ne_empty (p q : String) (hp : p ≠ "") : p ++ q ≠ "" := by
  intro h
  have hd : p.data ++ q.data = ([] : List Char) := congrArg String.data h
  have hp2 : p.data = [] := (List.append_eq_nil.mp hd).1
  apply hp
  cases p with
  | mk data =>
    simp only [String.data] at hp2
    rw [hp2]

/-- C9 (counterexample): `importPrompts` on a structurally valid payload
containing zero prompts completes with `success = false` and NO `error`
field — the failure result is not uniform `success`/`error`/`message`. -/
theorem c9_import_error_field_counterexample :
    (importPrompts "g" isoNow isoLater 1000 [] emptyImportPayload defaultImportOptions).1.success
        = false ∧
    (importPrompts "g" isoNow isoLater 1000 [] emptyImportPayload defaultImportOptions).1.error
        = none := by
  refine ⟨by decide, by decide⟩

/-- C9 (amended): the data operations never propagate an exception
(every model function is total and returns its result object);
`savePrompt`, `deletePrompt` and `updatePromptMetadata` carry a string
`error` whenever `success` is false, `exportPrompts` always succeeds,
and `importPrompts` always carries a non-empty message (but, per the
counterexample, not always an `error`). -/
theorem c9_error_result_shape :
    (∀ (g n : String) (maxP : Int) (store : Store) (v : JVal),
      ((savePrompt g n maxP store v).1.success = false →
        ((savePrompt g n maxP store v).1.error).isSome = true) ∧
      (savePrompt g n maxP store v).1.message ≠ "") ∧
    (∀ (store : Store) (pid : String),
      ((deletePrompt store pid).1.success = false →
        ((deletePrompt store pid).1.error).isSome = true) ∧
      (deletePrompt store pid).1.message ≠ "") ∧
    (∀ (g n : String) (store : Store) (pid : String) (md : JVal),
      ((updatePromptMetadata g n store pid md).1.success = false →
        ((updatePromptMetadata g n store pid md).1.error).isSome = true) ∧
      (updatePromptMetadata g n store pid md).1.message ≠ "") ∧
    (∀ (g n ea : String) (store : Store),
      (exportPrompts g n ea store).1.success = true ∧
      (exportPrompts g n ea store).1.message ≠ "") ∧
    (∀ (g n ia : String) (maxP : Int) (store : Store) (input : JVal)
        (opts : ImportOptions),
      (importPrompts g n ia maxP store input opts).1.message ≠ "") := by
  refine ⟨?_, ?_, ?_, ?_, ?_⟩
  · intro g n maxP store v
    unfold savePrompt
    cases hc : createPromptData g n v with
    | error e => simp [hc]
    | ok comp =>
      cases hv : validatePromptData comp with
      | error e => simp [hc, hv]
      | ok errs =>
        by_cases he : errs = [] <;> simp [hc, hv, he] <;> split_ifs <;> simp
  · intro store pid
    unfold deletePrompt
    split_ifs <;> simp
  · intro g n store pid md
    unfold updatePromptMetadata
    cases hl : (loadPrompt g n store pid).1 with
    | none => simp [hl]
    | some p =>
      simp only [hl]
      refine ⟨?_, ?_⟩
      · intro hsucc
        split at hsucc
        · simp_all
        · split_ifs at hsucc <;> simp_all
      · split
        · simp
        · split_ifs <;> simp
  · intro g n ea store
    unfold exportPrompts
    simp
  · intro g n ia maxP store input opts
    unfold importPrompts
    repeat' (first | split | simp only [])
    all_goals
      first
        | decide
        | ((repeat' apply append_left_ne_empty) <;> decide)

/-- C9 witness: failure shapes at concrete malformed inputs. -/
theorem c9_error_result_shape_witness :
    ((savePrompt "g" isoNow 1000 [] JVal.vnull).1.error).isSome = true ∧
    ((deletePrompt [] "x").1.error).isSome = true ∧
    ((updatePromptMetadata "g" isoNow [] "x" JVal.vnull).1.error).isSome = true ∧
    (exportPrompts "g" isoNow isoLater []).1.success = true :=
  ⟨(c9_error_result_shape.1 "g" isoNow 1000 [] JVal.vnull).1 (by decide),
   (c9_error_result_shape.2.1 [] "x").1 (by decide),
   (c9_error_result_shape.2.2.1 "g" isoNow [] "x" JVal.vnull).1 (by decide),
   (c9_error_result_shape.2.2.2.1 "g" isoNow isoLater []).1⟩

/-- Lookup skips a block without the key. -/
theorem fieldsGet_append_of_not_mem {A : List (String × JVal)} {k : String}
    (h : k ∉ A.map Prod.fst) (B : List (String × JVal)) :
    fieldsGet (A ++ B) k = fieldsGet B k := by
  induction A with
  | nil => rfl
  | cons kv rest ih =>
    obtain ⟨k1, v1⟩ := kv
    simp only [List.map_cons, List.mem_cons] at h
    push_neg at h
    simp only [List.cons_append, fieldsGet, if_neg (Ne.symm h.1)]
    exact ih h.2

/-- Lookup misses entirely when the key is absent. -/
theorem fieldsGet_eq_none_of_not_mem {A : List (String × JVal)} {k : String}
    (h : k ∉ A.map Prod.fst) : fieldsGet A k = none := by
  have := fieldsGet_append_of_not_mem h []
  simpa using this

/-- Assignment on a fresh key appends. -/
theorem fieldsSet_fresh {A : List (String × JVal)} {k : String}
    (h : k ∉ A.map Prod.fst) (v : JVal) : fieldsSet A k v = A ++ [(k, v)] := by
  induction A with
  | nil => rfl
  | cons kv rest ih =>
    obtain ⟨k1, v1⟩ := kv
    simp only [List.map_cons, List.mem_cons] at h
    push_neg at h
    simp only [fieldsSet, if_neg (Ne.symm h.1), List.cons_append, List.cons.injEq, true_and]
    exact ih h.2

/-- Assignment replaces in the middle when the key first occurs there. -/
theorem fieldsSet_append_mid {A : List (String × JVal)} {k : String}
    (h : k ∉ A.map Prod.fst) (v w : JVal) (B : List (String × JVal)) :
    fieldsSet (A ++ (k, v) :: B) k w = A ++ (k, w) :: B := by
  induction A with
  | nil => simp [fieldsSet]
  | cons kv rest ih =>
    obtain ⟨k1, v1⟩ := kv
    simp only [List.map_cons, List.mem_cons] at h
    push_neg at h
    simp only [List.cons_append, fieldsSet, if_neg (Ne.symm h.1), List.cons.injEq, true_and]
    exact ih h.2

/-- `createPromptData` returns a stamped well-formed canonical record
unchanged (the import stamps ride along in the metadata spread). -/
theorem createPromptData_canon_stamp (c : CanonRecord) (g n ia : String) (src : JVal)
    (hc : c.wf = true) :
    createPromptData g n (c.toJValX (importStamp ia src)) =
      .ok (c.toJValX (importStamp ia src)) := by
  simp only [CanonRecord.wf, Bool.and_eq_true, decide_eq_true_eq] at hc
  obtain ⟨⟨⟨⟨⟨⟨⟨⟨⟨⟨⟨hid, hn1⟩, hn2⟩, hc1⟩, hc2⟩, hrole⟩, hca⟩, hlu⟩, huc⟩, hsp⟩, hdep⟩, hord⟩ := hc
  have hrolene : c.role ≠ "" := by rcases hrole with h | h | h <;> simp [h]
  simp only [CanonRecord.toJValX, CanonRecord.metaFields, importStamp, List.append_nil]
  cases hl : c.last_used with
  | none =>
    cases hs : c.source_preset with
    | none =>
      simp [createPromptData, jgetE, jget, fieldsGet, jgetOpt, jsOr, truthy, spreadFields,
        fieldsSet, optStrToJVal, hid, hn1, hc1, hrolene, canonIso_ne_empty hca]
      omega
    | some sp =>
      rw [hs] at hsp
      simp only [decide_eq_true_eq] at hsp
      simp [createPromptData, jgetE, jget, fieldsGet, jgetOpt, jsOr, truthy, spreadFields,
        fieldsSet, optStrToJVal, hid, hn1, hc1, hrolene, canonIso_ne_empty hca, hsp]
      omega
  | some lu =>
    rw [hl] at hlu
    simp only [Bool.and_eq_true, decide_eq_true_eq] at hlu
    cases hs : c.source_preset with
    | none =>
      simp [createPromptData, jgetE, jget, fieldsGet, jgetOpt, jsOr, truthy, spreadFields,
        fieldsSet, optStrToJVal, hid, hn1, hc1, hrolene, canonIso_ne_empty hca, hlu.1]
      omega
    | some sp =>
      rw [hs] at hsp
      simp only [decide_eq_true_eq] at hsp
      simp [createPromptData, jgetE, jget, fieldsGet, jgetOpt, jsOr, truthy, spreadFields,
        fieldsSet, optStrToJVal, hid, hn1, hc1, hrolene, canonIso_ne_empty hca, hsp, hlu.1]
      omega

/-- `savePrompt` with a stamped well-formed canonical record on an
all-valid store. -/
theorem savePrompt_canon_stamp_eq (g n ia : String) (src : JVal) (maxP : Int)
    (store : Store) (c : CanonRecord)
    (hstore : ∀ kv ∈ store, validatePromptData kv.2 = .ok []) (hc : c.wf = true) :
    savePrompt g n maxP store (c.toJValX (importStamp ia src)) =
      if (store.length : Int) ≥ maxP ∧ ¬ truthy ((fieldsGet store c.id).getD .vundef) then
        ({ success := false, promptData := none,
           error := some ("Storage limit reached. Maximum " ++ toString maxP ++ " prompts allowed."),
           message := "Failed to save prompt" }, store)
      else
        ({ success := true, promptData := some (c.toJValX (importStamp ia src)), error := none,
           message := "Prompt saved successfully" },
         fieldsSet store c.id (c.toJValX (importStamp ia src))) := by
  have hval : validatePromptData (c.toJValX (importStamp ia src)) = .ok [] :=
    validate_canon c (importStamp ia src) hc
  have hcr := createPromptData_canon_stamp c g n ia src hc
  have hid : asStr (jget (c.toJValX (importStamp ia src)) "id") = c.id := by
    simp [CanonRecord.toJValX, jget, fieldsGet, asStr]
  rw [savePrompt, hcr]
  simp only [hval, getPrompts_all_valid hstore, hid]
  simp

/-- Every entry of a half-imported canonical store passes validation. -/
theorem mixed_store_valid (ia : String) (src : JVal) (done pending : List CanonRecord)
    (hwfd : ∀ x ∈ done, x.wf = true) (hwfp : ∀ x ∈ pending, x.wf = true) :
    ∀ kv ∈ importedStore ia src done ++ canonStore pending,
      validatePromptData kv.2 = Except.ok [] := by
  intro kv hkv
  rcases List.mem_append.1 hkv with h | h
  · obtain ⟨x, hx, rfl⟩ := List.mem_map.1 h
    exact validate_canon x _ (hwfd x hx)
  · obtain ⟨x, hx, rfl⟩ := List.mem_map.1 h
    simpa [CanonRecord.toJVal] using validate_canon x [] (hwfp x hx)

set_option maxHeartbeats 2000000 in
/-- One `importPrompts` iteration on a canonical record re-exported from
the store (overwrite on, merge on, validation on): the record is
overwritten in place with the two import stamps added to its metadata. -/
theorem importStep_canon (g n ia : String) (maxP : Int) (src : JVal)
    (done rest : List CanonRecord) (c : CanonRecord)
    (hwfd : ∀ x ∈ done, x.wf = true) (hwfc : c.wf = true) (hwfr : ∀ x ∈ rest, x.wf = true)
    (hfresh : c.id ∉ done.map CanonRecord.id) :
    importStep g n ia maxP true true true src c.id c.toJVal
        (importedStore ia src done ++ canonStore (c :: rest)) =
      .ok (.importedOne (JVal.vobj [("id", .vstr c.id),
            ("name", .vstr c.name),
            ("status", .vstr "imported"),
            ("reason", .vstr "Overwritten")]),
        importedStore ia src (done ++ [c]) ++ canonStore rest) := by
  have hvalid : validatePromptData c.toJVal = Except.ok [] := by
    simpa [CanonRecord.toJVal] using validate_canon c [] hwfc
  have hstore := mixed_store_valid ia src done (c :: rest) hwfd (by
    intro x hx
    rcases List.mem_cons.1 hx with rfl | hx'
    · exact hwfc
    · exact hwfr x hx')
  have hgp := @getPrompts_all_valid g n _ hstore
  have hkeys : c.id ∉ (importedStore ia src done).map Prod.fst := by
    simpa [importedStore, List.map_map, Function.comp_def] using hfresh
  have hget : fieldsGet (importedStore ia src done ++ canonStore (c :: rest)) c.id
      = some c.toJVal := by
    rw [fieldsGet_append_of_not_mem hkeys]
    simp [canonStore, fieldsGet]
  have hsetS : fieldsSet (importedStore ia src done ++ canonStore (c :: rest)) c.id
      (c.toJValX (importStamp ia src))
      = importedStore ia src (done ++ [c]) ++ canonStore rest := by
    have hcons : canonStore (c :: rest) = (c.id, c.toJVal) :: canonStore rest := rfl
    rw [hcons, fieldsSet_append_mid hkeys]
    simp [importedStore, canonStore]
  have hname : c.name ≠ "" := by
    simp only [CanonRecord.wf, Bool.and_eq_true, decide_eq_true_eq] at hwfc
    exact hwfc.1.1.1.1.1.1.1.1.1.1.2
  have htr : truthy c.toJVal = true := rfl
  have hsave := savePrompt_canon_stamp_eq g n ia src maxP
    (importedStore ia src done ++ canonStore (c :: rest)) c hstore hwfc
  rw [hget] at hsave
  simp only [Option.getD_some, htr, not_true, and_false, if_false, ite_false] at hsave
  rw [importStep, if_pos rfl, hvalid]
  simp only [List.isEmpty_nil, not_true, if_false, ite_false, Bool.not_true,
    decide_eq_true_eq]
  rw [importStepRest, hgp]
  simp only [hget, Option.getD_some, htr, not_true, and_false, if_false, ite_false,
    true_and, not_false_eq_true, and_true, if_true, ite_true]
  simp only [CanonRecord.toJVal, CanonRecord.toJValX, CanonRecord.metaFields,
    importStamp, List.append_nil, jgetE, jget, fieldsGet, spreadFields, fieldsSet,
    List.foldl, jsOr, truthy, Except.bind, bind, pure, Except.pure, importDetail,
    String.reduceEq, if_true, if_false, ite_true, ite_false, hname]
  simp only [CanonRecord.toJValX, CanonRecord.metaFields, importStamp,
    List.append_nil, List.cons_append, List.nil_append] at hsave hsetS
  rw [hsave]
  simp only [hsetS]
  simp [hname, jsOr, truthy]

/-- The `importPrompts` loop over a re-exported canonical store imports
every record in place, stamping each metadata, with no skips and no
errors. -/
theorem importLoop_canon (g n ia : String) (maxP : Int) (src : JVal)
    (pending : List CanonRecord) :
    ∀ (done : List CanonRecord) (imported skipped errC : Nat) (details : List JVal),
      (∀ x ∈ done ++ pending, x.wf = true) →
      ((done ++ pending).map CanonRecord.id).Nodup →
      ∃ ds, importLoop g n ia maxP true true true src (canonStore pending)
          imported skipped errC details
          (importedStore ia src done ++ canonStore pending) =
        .ok (imported + pending.length, skipped, errC, ds,
             importedStore ia src (done ++ pending)) := by
  induction pending with
  | nil =>
    intro done imported skipped errC details hwf hnd
    refine ⟨details, ?_⟩
    simp [importLoop, canonStore]
  | cons c rest ih =>
    intro done imported skipped errC details hwf hnd
    have hfresh : c.id ∉ done.map CanonRecord.id := by
      intro hmem
      rw [List.map_append] at hnd
      rcases List.nodup_append.1 hnd with ⟨h1, h2, hdisj⟩
      exact hdisj hmem (by simp)
    have hwfd : ∀ x ∈ done, x.wf = true := fun x hx => hwf x (by simp [hx])
    have hwfc : c.wf = true := hwf c (by simp)
    have hwfr : ∀ x ∈ rest, x.wf = true := fun x hx => hwf x (by simp [hx])
    have hstep := importStep_canon g n ia maxP src done rest c hwfd hwfc hwfr hfresh
    have hcons : canonStore (c :: rest) = (c.id, c.toJVal) :: canonStore rest := rfl
    have heq : (done ++ [c]) ++ rest = done ++ c :: rest := by simp
    have hwf2 : ∀ x ∈ (done ++ [c]) ++ rest, x.wf = true := by
      rw [heq]; exact hwf
    have hnd2 : (((done ++ [c]) ++ rest).map CanonRecord.id).Nodup := by
      rw [heq]; exact hnd
    obtain ⟨ds, hloop⟩ := ih (done ++ [c]) (imported + 1) skipped errC
      (details ++ [JVal.vobj [("id", .vstr c.id), ("name", .vstr c.name),
        ("status", .vstr "imported"), ("reason", .vstr "Overwritten")]]) hwf2 hnd2
    refine ⟨ds, ?_⟩
    rw [hcons] at hstep ⊢
    simp only [importLoop, hstep]
    rw [hloop, heq]
    have harith : imported + 1 + rest.length = imported + (c :: rest).length := by
      simp [List.length_cons]
      omega
    rw [harith]

/-- C2 (counterexample): a sparse but valid record does not survive the
export/import round trip byte-for-byte beyond import stamps — the
re-imported record gains a defaulted `system_prompt: false` field the
original never had. -/
theorem c2_roundtrip_counterexample :
    jget sparseRecord "system_prompt" = JVal.vundef ∧
    jget ((fieldsGet (importPrompts "g" isoNow isoLater 1000
        (exportPrompts "g" isoNow isoNow [("p1", sparseRecord)]).2
        ((exportPrompts "g" isoNow isoNow [("p1", sparseRecord)]).1.data.getD JVal.vnull)
        { defaultImportOptions with overwriteExisting := some true }).2 "p1").getD JVal.vnull)
      "system_prompt" = JVal.vbool false :=
  ⟨rfl, rfl⟩

set_option maxHeartbeats 1000000 in
/-- C2: for a store of well-formed canonical records with distinct ids
(the shape `savePrompt` itself writes), export followed by import with
overwrite enabled reproduces every record exactly, each gaining only the
two metadata import stamps `imported_at` and `import_source`; every
record is counted imported, none skipped, none errored. -/
theorem c2_roundtrip_canonical (cs : List CanonRecord)
    (g n exportedAt importedAt : String) (maxP : Int)
    (hwf : ∀ c ∈ cs, c.wf = true)
    (hnd : (cs.map CanonRecord.id).Nodup)
    (hea : exportedAt ≠ "") :
    (exportPrompts g n exportedAt (canonStore cs)).1.success = true ∧
    (exportPrompts g n exportedAt (canonStore cs)).2 = canonStore cs ∧
    (exportPrompts g n exportedAt (canonStore cs)).1.data =
      some (JVal.vobj [("version", .vstr "1.0.0"),
        ("exported_at", .vstr exportedAt),
        ("prompt_count", .vnum (cs.length : Int)),
        ("prompts", .vobj (canonStore cs))]) ∧
    (importPrompts g n importedAt maxP (canonStore cs)
        (JVal.vobj [("version", .vstr "1.0.0"),
          ("exported_at", .vstr exportedAt),
          ("prompt_count", .vnum (cs.length : Int)),
          ("prompts", .vobj (canonStore cs))])
        { defaultImportOptions with overwriteExisting := some true }).2 =
      importedStore importedAt (.vstr exportedAt) cs ∧
    (importPrompts g n importedAt maxP (canonStore cs)
        (JVal.vobj [("version", .vstr "1.0.0"),
          ("exported_at", .vstr exportedAt),
          ("prompt_count", .vnum (cs.length : Int)),
          ("prompts", .vobj (canonStore cs))])
        { defaultImportOptions with overwriteExisting := some true }).1.imported = cs.length ∧
    (importPrompts g n importedAt maxP (canonStore cs)
        (JVal.vobj [("version", .vstr "1.0.0"),
          ("exported_at", .vstr exportedAt),
          ("prompt_count", .vnum (cs.length : Int)),
          ("prompts", .vobj (canonStore cs))])
        { defaultImportOptions with overwriteExisting := some true }).1.skipped = 0 ∧
    (importPrompts g n importedAt maxP (canonStore cs)
        (JVal.vobj [("version", .vstr "1.0.0"),
          ("exported_at", .vstr exportedAt),
          ("prompt_count", .vnum (cs.length : Int)),
          ("prompts", .vobj (canonStore cs))])
        { defaultImportOptions with overwriteExisting := some true }).1.errors = 0 := by
  have hstore : ∀ kv ∈ canonStore cs, validatePromptData kv.2 = Except.ok [] := by
    intro kv hkv
    obtain ⟨x, hx, rfl⟩ := List.mem_map.1 hkv
    simpa [CanonRecord.toJVal] using validate_canon x [] (hwf x hx)
  have hgp := @getPrompts_all_valid g n _ hstore
  have hlen : (canonStore cs).length = cs.length := by simp [canonStore]
  obtain ⟨ds, hloop⟩ := importLoop_canon g n importedAt maxP (.vstr exportedAt) cs []
    0 0 0 [] (by simpa using hwf) (by simpa using hnd)
  have him0 : importedStore importedAt (JVal.vstr exportedAt) [] = [] := rfl
  simp only [him0, List.nil_append, Nat.zero_add] at hloop
  refine ⟨?_, ?_, ?_, ?_⟩
  · simp [exportPrompts, hgp]
  · simp [exportPrompts, hgp]
  · simp [exportPrompts, hgp, hlen]
  · have himp : (importPrompts g n importedAt maxP (canonStore cs)
        (JVal.vobj [("version", .vstr "1.0.0"),
          ("exported_at", .vstr exportedAt),
          ("prompt_count", .vnum (cs.length : Int)),
          ("prompts", .vobj (canonStore cs))])
        { defaultImportOptions with overwriteExisting := some true }).2 =
          importedStore importedAt (.vstr exportedAt) cs ∧
        (importPrompts g n importedAt maxP (canonStore cs)
        (JVal.vobj [("version", .vstr "1.0.0"),
          ("exported_at", .vstr exportedAt),
          ("prompt_count", .vnum (cs.length : Int)),
          ("prompts", .vobj (canonStore cs))])
        { defaultImportOptions with overwriteExisting := some true }).1.imported = cs.length ∧
        (importPrompts g n importedAt maxP (canonStore cs)
        (JVal.vobj [("version", .vstr "1.0.0"),
          ("exported_at", .vstr exportedAt),
          ("prompt_count", .vnum (cs.length : Int)),
          ("prompts", .vobj (canonStore cs))])
        { defaultImportOptions with overwriteExisting := some true }).1.skipped = 0 ∧
        (importPrompts g n importedAt maxP (canonStore cs)
        (JVal.vobj [("version", .vstr "1.0.0"),
          ("exported_at", .vstr exportedAt),
          ("prompt_count", .vnum (cs.length : Int)),
          ("prompts", .vobj (canonStore cs))])
        { defaultImportOptions with overwriteExisting := some true }).1.errors = 0 := by
      simp [importPrompts, defaultImportOptions, jget, fieldsGet, truthy, hea,
        hgp, jsEntries, hloop]
    exact himp

/-- C2 witness: the canonical round trip instantiated on the one-record
store holding `sampleCanon`. -/
theorem c2_roundtrip_canonical_witness :
    (exportPrompts "g" isoNow isoLater (canonStore [sampleCanon])).2 =
      canonStore [sampleCanon] ∧
    (importPrompts "g" isoNow "2024-07-01T00:00:00.000Z" 1000 (canonStore [sampleCanon])
        (JVal.vobj [("version", .vstr "1.0.0"),
          ("exported_at", .vstr isoLater),
          ("prompt_count", .vnum (([sampleCanon] : List CanonRecord).length : Int)),
          ("prompts", .vobj (canonStore [sampleCanon]))])
        { defaultImportOptions with overwriteExisting := some true }).2 =
      importedStore "2024-07-01T00:00:00.000Z" (.vstr isoLater) [sampleCanon] := by
  have h := c2_roundtrip_canonical [sampleCanon] "g" isoNow isoLater
    "2024-07-01T00:00:00.000Z" 1000 (by decide) (by decide) (by decide)
  exact ⟨h.2.1, h.2.2.2.1⟩

/-- `s || w` keeps a non-empty string. -/
theorem jsOr_vstr_ne {s : String} (h : s ≠ "") (w : JVal) : jsOr (.vstr s) w = .vstr s := by
  simp [jsOr, truthy, h]

/-- `b || false` is `b` for a boolean. -/
theorem jsOr_vbool_false (b : Bool) : jsOr (.vbool b) (.vbool false) = .vbool b := by
  cases b <;> simp [jsOr, truthy]

/-- `x || 0` is `x` for a number (`0 || 0` is still `0`). -/
theorem jsOr_vnum_zero (x : Int) : jsOr (.vnum x) (.vnum 0) = .vnum x := by
  by_cases h : x = 0 <;> simp [jsOr, truthy, h]

/-- `x || x` is `x` for a number. -/
theorem jsOr_vnum_self (x : Int) : jsOr (.vnum x) (.vnum x) = .vnum x := by
  by_cases h : x = 0 <;> simp [jsOr, truthy, h]

/-- The resolved injection depth is never `0`, so `d || 4` keeps it. -/
theorem jsOr_depth (n : Int) :
    jsOr (.vnum (if n = 0 then 4 else n)) (.vnum 4) = .vnum (if n = 0 then 4 else n) := by
  by_cases h : n = 0 <;> simp [jsOr, truthy, h]

/-- The resolved injection order is never `0`, so `o || 100` keeps it. -/
theorem jsOr_order (n : Int) :
    jsOr (.vnum (if n = 0 then 100 else n)) (.vnum 100) = .vnum (if n = 0 then 100 else n) := by
  by_cases h : n = 0 <;> simp [jsOr, truthy, h]

/-- `null || w` falls through. -/
theorem jsOr_vnull (w : JVal) : jsOr .vnull w = w := rfl

/-- `undefined || w` falls through. -/
theorem jsOr_vundef (w : JVal) : jsOr .vundef w = w := rfl

/-- An array is truthy, so `a || w` keeps it. -/
theorem jsOr_varr (xs : List JVal) (w : JVal) : jsOr (.varr xs) w = .varr xs := rfl

/-- The name `saveCurrentPrompt` resolves is never the empty string (the
fallback has the non-empty prefix `Prompt from `). -/
theorem resolvedName_ne_empty (pp : PresetPrompt) (pnv : JVal) :
    pp.resolvedName pnv ≠ "" := by
  have hpf : ("Prompt from " ++ display pnv) ≠ "" := by
    intro h
    have hlen2 := congrArg String.length h
    simp [String.length_append] at hlen2
    exact absurd hlen2.1 (by decide)
  cases hn : pp.name with
  | none => simpa [PresetPrompt.resolvedName, hn] using hpf
  | some n =>
    by_cases hne : n = ""
    · simpa [PresetPrompt.resolvedName, hn, hne] using hpf
    · simpa [PresetPrompt.resolvedName, hn, hne] using hne

/-- `presetName || "Unknown Preset"` always resolves to a non-empty
string when the preset name is a string-or-absent value. -/
theorem sourcePreset_resolves (presetName : Option String) :
    ∃ s, jsOr (optToJVal JVal.vstr presetName) (.vstr "Unknown Preset") = .vstr s ∧ s ≠ "" := by
  cases presetName with
  | none => exact ⟨"Unknown Preset", rfl, by decide⟩
  | some t =>
    by_cases ht : t = ""
    · exact ⟨"Unknown Preset", by simp [optToJVal, jsOr, truthy, ht], by decide⟩
    · exact ⟨t, by simp [optToJVal, jsOr, truthy, ht], ht⟩

/-- A canonical ISO timestamp passes `isValidISODate`. -/
theorem canonIso_valid {s : String} (h : canonIso s = true) :
    isValidISODateStr s = true := by
  unfold canonIso at h
  cases hpd : jsParseDate s with
  | none => rw [hpd] at h; exact absurd h (by simp)
  | some d =>
    rw [hpd] at h
    simp [Bool.and_eq_true] at h
    exact h.1

/-- `validatePromptData` on the record `saveCurrentPrompt` assembles:
the only possible complaint is a whitespace-only resolved name. -/
theorem validate_presetRecord (gid nowi : String) (presetName : Option String)
    (pp : PresetPrompt) (c r : String)
    (hgid : gid ≠ "") (hnow : canonIso nowi = true)
    (hc : pp.content = some c) (hct : jsTrim c ≠ "")
    (hr : pp.role = some r) (hrin : r = "user" ∨ r = "assistant" ∨ r = "system") :
    validatePromptData (presetRecordT gid nowi (optToJVal JVal.vstr presetName) pp) =
      .ok (if jsTrim (pp.resolvedName (optToJVal JVal.vstr presetName)) = "" then
        ["Prompt name is required and must be a non-empty string"] else []) := by
  obtain ⟨s, hs, hsne⟩ := sourcePreset_resolves presetName
  have hrne : pp.resolvedName (optToJVal JVal.vstr presetName) ≠ "" :=
    resolvedName_ne_empty pp _
  have hcne : c ≠ "" := by
    intro h
    rw [h] at hct
    exact hct rfl
  have hnne := canonIso_ne_empty hnow
  have hvdn := canonIso_valid hnow
  have hrne2 : r ≠ "" := by rcases hrin with h | h | h <;> simp [h]
  have hcv : optToJVal JVal.vstr pp.content = .vstr c := by rw [hc]; rfl
  have hrv : optToJVal JVal.vstr pp.role = .vstr r := by rw [hr]; rfl
  rcases hrin with h | h | h <;> subst h <;>
    simp [validatePromptData, presetRecordT, jgetE, jget, fieldsGet, truthy, isStr,
      isBool, isNum, isUndef, isNull, isArr, roleIncluded, isValidISODate, isNegNum,
      isStringArray, allStrings, asStr, hcv, hrv, hgid, hrne, hct, hcne, hnne,
      hvdn, hs, hsne]

/-- `createPromptData` returns the record `saveCurrentPrompt` assembles
unchanged: every field is present and survives its `|| default`. -/
theorem createPromptData_presetRecord (g2 n2 gid nowi : String) (presetName : Option String)
    (pp : PresetPrompt) (c r : String)
    (hgid : gid ≠ "") (hnne : nowi ≠ "")
    (hc : pp.content = some c) (hcne : c ≠ "")
    (hr : pp.role = some r) (hrne : r ≠ "") :
    createPromptData g2 n2 (presetRecordT gid nowi (optToJVal JVal.vstr presetName) pp) =
      .ok (presetRecordT gid nowi (optToJVal JVal.vstr presetName) pp) := by
  obtain ⟨s, hs, hsne⟩ := sourcePreset_resolves presetName
  have hrn : pp.resolvedName (optToJVal JVal.vstr presetName) ≠ "" :=
    resolvedName_ne_empty pp _
  have hcv : optToJVal JVal.vstr pp.content = .vstr c := by rw [hc]; rfl
  have hrv : optToJVal JVal.vstr pp.role = .vstr r := by rw [hr]; rfl
  cases hip : pp.injection_position <;> cases hdp : pp.injection_depth <;>
    cases hop : pp.injection_order <;>
    simp [createPromptData, presetRecordT, jgetE, jget, fieldsGet, jgetOpt,
      spreadFields, fieldsSet, hcv, hrv, hgid, hrn, hcne, hrne, hnne, hs,
      hsne, hip, hdp, hop, jsOr_vstr_ne, jsOr_vbool_false, jsOr_vnum_zero,
      jsOr_vnum_self, jsOr_depth, jsOr_order, jsOr_vnull, jsOr_vundef, jsOr_varr]

/-- The name expression of `saveCurrentPrompt` (with a `null` explicit
name) resolves to the resolved name. -/
theorem presetName_resolves (pp : PresetPrompt) (pnv : JVal) :
    jsOr JVal.vnull (jsOr (optToJVal JVal.vstr pp.name)
      (.vstr ("Prompt from " ++ display pnv))) = .vstr (pp.resolvedName pnv) := by
  cases hn : pp.name with
  | none => simp [optToJVal, jsOr, truthy, PresetPrompt.resolvedName, hn]
  | some n =>
    by_cases h : n = "" <;>
      simp [optToJVal, jsOr, truthy, PresetPrompt.resolvedName, hn, h]

/-- `b || false` on an optional boolean field resolves to its default. -/
theorem presetBool_resolves (o : Option Bool) :
    jsOr (optToJVal JVal.vbool o) (.vbool false) = .vbool (o.getD false) := by
  cases o with
  | none => rfl
  | some b => cases b <;> rfl

/-- `p || 0` on an optional numeric field keeps a stored `0`. -/
theorem presetPos_resolves (o : Option Int) :
    jsOr (optToJVal JVal.vnum o) (.vnum 0) =
      .vnum (match o with | some n => n | none => 0) := by
  cases o with
  | none => rfl
  | some n => by_cases h : n = 0 <;> simp [optToJVal, jsOr, truthy, h]

/-- `d || 4` on the optional injection depth. -/
theorem presetDepth_resolves (o : Option Int) :
    jsOr (optToJVal JVal.vnum o) (.vnum 4) =
      .vnum (match o with | some n => if n ≠ 0 then n else 4 | none => 4) := by
  cases o with
  | none => rfl
  | some n => by_cases h : n = 0 <;> simp [optToJVal, jsOr, truthy, h]

/-- `o || 100` on the optional injection order. -/
theorem presetOrder_resolves (o : Option Int) :
    jsOr (optToJVal JVal.vnum o) (.vnum 100) =
      .vnum (match o with | some n => if n ≠ 0 then n else 100 | none => 100) := by
  cases o with
  | none => rfl
  | some n => by_cases h : n = 0 <;> simp [optToJVal, jsOr, truthy, h]

/-- `savePrompt` on the record `saveCurrentPrompt` assembles, under the
capacity bound, with a fresh id: the record is appended unchanged. -/
theorem savePrompt_presetRecord (g2 n2 : String) (maxP : Int) (store : Store)
    (gid nowi : String) (presetName : Option String) (pp : PresetPrompt) (c r : String)
    (hstore : ∀ kv ∈ store, validatePromptData kv.2 = Except.ok [])
    (hgid : gid ≠ "") (hnow : canonIso nowi = true)
    (hc : pp.content = some c) (hct : jsTrim c ≠ "")
    (hr : pp.role = some r) (hrin : r = "user" ∨ r = "assistant" ∨ r = "system")
    (hrn : jsTrim (pp.resolvedName (optToJVal JVal.vstr presetName)) ≠ "")
    (hlen : (store.length : Int) < maxP) (hfresh : gid ∉ store.map Prod.fst) :
    savePrompt g2 n2 maxP store (presetRecordT gid nowi (optToJVal JVal.vstr presetName) pp) =
      ({ success := true,
         promptData := some (presetRecordT gid nowi (optToJVal JVal.vstr presetName) pp),
         error := none, message := "Prompt saved successfully" },
       store ++ [(gid, presetRecordT gid nowi (optToJVal JVal.vstr presetName) pp)]) := by
  have hcne : c ≠ "" := by
    intro h
    rw [h] at hct
    exact hct rfl
  have hrne : r ≠ "" := by rcases hrin with h | h | h <;> simp [h]
  have hcreate := createPromptData_presetRecord g2 n2 gid nowi presetName pp c r hgid
    (canonIso_ne_empty hnow) hc hcne hr hrne
  have hval := validate_presetRecord gid nowi presetName pp c r hgid hnow hc hct hr hrin
  rw [if_neg hrn] at hval
  have hgp := @getPrompts_all_valid g2 n2 _ hstore
  have hcid : asStr (jget (presetRecordT gid nowi (optToJVal JVal.vstr presetName) pp) "id")
      = gid := by
    simp [presetRecordT, jget, fieldsGet, asStr]
  rw [savePrompt, hcreate]
  simp only [hval, List.isEmpty_nil, Bool.not_true, if_false, ite_false, not_true,
    decide_eq_true_eq, hgp, hcid]
  split
  · rename_i hcap
    exact absurd hcap.1 (by exact not_le.2 hlen)
  · rw [fieldsSet_fresh hfresh]

/-- A preset prompt with blank content is skipped and the store is left
untouched. -/
theorem presetStep_blank (gid nowi : String) (maxP : Int) (pnv pname : JVal)
    (pp : PresetPrompt) (store : Store) (hb : pp.blankContent = true) :
    presetPromptStep gid nowi maxP pnv pname pp.toJVal store = .ok (.skippedStep, store) := by
  cases hc : pp.content with
  | none =>
    simp [presetPromptStep, PresetPrompt.toJVal, jgetE, jget, fieldsGet, hc,
      optToJVal, truthy]
  | some c =>
    simp only [PresetPrompt.blankContent, hc, decide_eq_true_eq] at hb
    by_cases hce : c = ""
    · simp [presetPromptStep, PresetPrompt.toJVal, jgetE, jget, fieldsGet, hc, hce,
        optToJVal, truthy]
    · simp [presetPromptStep, PresetPrompt.toJVal, jgetE, jget, fieldsGet, hc,
        optToJVal, truthy, hce, hb]

set_option maxHeartbeats 1000000 in
/-- A preset prompt with non-blank content, an accepted role and a
non-blank resolved name is stored: the assembled record is appended to
the store under the fresh id. -/
theorem presetStep_saved (gid nowi : String) (maxP : Int) (presetName : Option String)
    (pp : PresetPrompt) (c r : String) (store : Store)
    (hstore : ∀ kv ∈ store, validatePromptData kv.2 = Except.ok [])
    (hgid : gid ≠ "") (hnow : canonIso nowi = true)
    (hc : pp.content = some c) (hct : jsTrim c ≠ "")
    (hr : pp.role = some r) (hrin : r = "user" ∨ r = "assistant" ∨ r = "system")
    (hrn : jsTrim (pp.resolvedName (optToJVal JVal.vstr presetName)) ≠ "")
    (hlen : (store.length : Int) < maxP) (hfresh : gid ∉ store.map Prod.fst) :
    presetPromptStep gid nowi maxP (optToJVal JVal.vstr presetName) .vnull pp.toJVal store =
      .ok (.savedStep (presetRecordT gid nowi (optToJVal JVal.vstr presetName) pp),
           store ++ [(gid, presetRecordT gid nowi (optToJVal JVal.vstr presetName) pp)]) := by
  have hcne : c ≠ "" := by
    intro h
    rw [h] at hct
    exact hct rfl
  have hrne : r ≠ "" := by rcases hrin with h | h | h <;> simp [h]
  have hcv : optToJVal JVal.vstr pp.content = .vstr c := by rw [hc]; rfl
  have hrv : optToJVal JVal.vstr pp.role = .vstr r := by rw [hr]; rfl
  have htr : truthy (JVal.vstr r) = true := by simp [truthy, hrne]
  have hrl : roleIncluded (JVal.vstr r) = true := by
    rcases hrin with h | h | h <;> simp [roleIncluded, h]
  have hsave := savePrompt_presetRecord gid nowi maxP store gid nowi presetName pp c r
    hstore hgid hnow hc hct hr hrin hrn hlen hfresh
  simp [presetRecordT, hcv, hrv] at hsave
  simp [presetPromptStep, PresetPrompt.toJVal, jgetE, jget, fieldsGet, hcv, hrv, htr,
    hrl, hct, hcne, hrne, truthy, presetRecordT, presetName_resolves, presetBool_resolves,
    presetPos_resolves, presetDepth_resolves, presetOrder_resolves, hsave]

/-- A preset prompt with non-blank content but a missing or unrecognised
role is recorded as an error and the store is left untouched. -/
theorem presetStep_roleBad (gid nowi : String) (maxP : Int) (pnv pname : JVal)
    (pp : PresetPrompt) (c : String) (store : Store)
    (hc : pp.content = some c) (hct : jsTrim c ≠ "")
    (hbad : match pp.role with
      | some r => ¬(r = "user" ∨ r = "assistant" ∨ r = "system")
      | none => True) :
    presetPromptStep gid nowi maxP pnv pname pp.toJVal store =
      .ok (.erroredStep ("Invalid role for prompt: " ++
        display (jsOr (optToJVal JVal.vstr pp.identifier) (.vstr "unknown"))), store) := by
  have hcne : c ≠ "" := by
    intro h
    rw [h] at hct
    exact hct rfl
  cases hrr : pp.role with
  | none =>
    simp [presetPromptStep, PresetPrompt.toJVal, jgetE, jget, fieldsGet, hc, hcne, hct,
      optToJVal, truthy, hrr]
  | some r =>
    have hbad2 : ¬(r = "user" ∨ r = "assistant" ∨ r = "system") := by
      rw [hrr] at hbad
      exact hbad
    push_neg at hbad2
    have hrl : roleIncluded (JVal.vstr r) = false := by
      simp [roleIncluded, hbad2.1, hbad2.2.1, hbad2.2.2]
    simp [presetPromptStep, PresetPrompt.toJVal, jgetE, jget, fieldsGet, hc, hcne, hct,
      optToJVal, truthy, hrr, hrl]

set_option maxHeartbeats 1000000 in
/-- A preset prompt whose resolved name is whitespace-only fails
validation inside `savePrompt`: the step records an error and the store
is untouched. -/
theorem presetStep_nameBlank (gid nowi : String) (maxP : Int) (presetName : Option String)
    (pp : PresetPrompt) (c r : String) (store : Store)
    (hgid : gid ≠ "") (hnow : canonIso nowi = true)
    (hc : pp.content = some c) (hct : jsTrim c ≠ "")
    (hr : pp.role = some r) (hrin : r = "user" ∨ r = "assistant" ∨ r = "system")
    (hrnb : jsTrim (pp.resolvedName (optToJVal JVal.vstr presetName)) = "") :
    presetPromptStep gid nowi maxP (optToJVal JVal.vstr presetName) .vnull pp.toJVal store =
      .ok (.erroredStep ("Failed to save prompt " ++
        display (optToJVal JVal.vstr pp.identifier) ++ ": " ++
        ("Prompt validation failed: " ++ String.intercalate ", "
          ["Prompt name is required and must be a non-empty string"])), store) := by
  have hcne : c ≠ "" := by
    intro h
    rw [h] at hct
    exact hct rfl
  have hrne : r ≠ "" := by rcases hrin with h | h | h <;> simp [h]
  have hcv : optToJVal JVal.vstr pp.content = .vstr c := by rw [hc]; rfl
  have hrv : optToJVal JVal.vstr pp.role = .vstr r := by rw [hr]; rfl
  have htr : truthy (JVal.vstr r) = true := by simp [truthy, hrne]
  have hrl : roleIncluded (JVal.vstr r) = true := by
    rcases hrin with h | h | h <;> simp [roleIncluded, h]
  have hcreate := createPromptData_presetRecord gid nowi gid nowi presetName pp c r hgid
    (canonIso_ne_empty hnow) hc hcne hr hrne
  have hval := validate_presetRecord gid nowi presetName pp c r hgid hnow hc hct hr hrin
  rw [if_pos hrnb] at hval
  have hsavefail : savePrompt gid nowi maxP store
      (presetRecordT gid nowi (optToJVal JVal.vstr presetName) pp) =
      ({ success := false, promptData := none,
         error := some ("Prompt validation failed: " ++ String.intercalate ", "
           ["Prompt name is required and must be a non-empty string"]),
         message := "Failed to save prompt" }, store) := by
    rw [savePrompt, hcreate]
    simp [hval]
  simp [presetRecordT, hcv, hrv] at hsavefail
  simp [presetPromptStep, PresetPrompt.toJVal, jgetE, jget, fieldsGet, hcv, hrv, htr,
    hrl, hct, hcne, hrne, truthy, presetRecordT, presetName_resolves, presetBool_resolves,
    presetPos_resolves, presetDepth_resolves, presetOrder_resolves, hsavefail]

/-- Loop invariant of `saveCurrentPrompt` over typed preset prompts with
fresh injective ids: the loop never throws, only appends to the store,
every appended record is valid and keyed by the id of its iteration,
blank prompts leave no record, and storable prompts leave exactly the
assembled record. -/
theorem presetLoop_canon (ids nows : Nat → String) (maxP : Int) (presetName : Option String)
    (hinj : ∀ i j, i ≠ j → ids i ≠ ids j)
    (hidne : ∀ i, ids i ≠ "")
    (hnowi : ∀ i, canonIso (nows i) = true) :
    ∀ (pps : List PresetPrompt) (k : Nat) (saved : List JVal) (errs : List String)
      (store : Store),
      (∀ kv ∈ store, validatePromptData kv.2 = Except.ok []) →
      ((store.length : Int) + pps.length ≤ maxP) →
      (∀ i, k ≤ i → ids i ∉ store.map Prod.fst) →
      ∃ saved2 errs2 newPart,
        presetLoop ids nows maxP (optToJVal JVal.vstr presetName) .vnull
          (pps.map PresetPrompt.toJVal) k saved errs store =
          .ok (saved2, errs2, store ++ newPart) ∧
        (∀ kv ∈ newPart, validatePromptData kv.2 = Except.ok []) ∧
        (∀ kv ∈ newPart, ∃ j, k ≤ j ∧ j < k + pps.length ∧ kv.1 = ids j) ∧
        (∀ m (hm : m < pps.length),
          ((pps.get ⟨m, hm⟩).blankContent = true →
            ids (k + m) ∉ newPart.map Prod.fst) ∧
          ((pps.get ⟨m, hm⟩).storable (optToJVal JVal.vstr presetName) = true →
            fieldsGet newPart (ids (k + m)) =
              some (presetRecordT (ids (k + m)) (nows (k + m))
                (optToJVal JVal.vstr presetName) (pps.get ⟨m, hm⟩)))) := by
  intro pps
  induction pps with
  | nil =>
    intro k saved errs store hstore hlen hfresh
    refine ⟨saved, errs, [], by simp [presetLoop], by simp, by simp, ?_⟩
    intro m hm
    exact absurd hm (by simp)
  | cons pp rest ih =>
    intro k saved errs store hstore hlen hfresh
    have hlen1 : (store.length : Int) + rest.length ≤ maxP := by
      simp only [List.length_cons] at hlen
      push_cast at hlen ⊢
      omega
    by_cases hb : pp.blankContent = true
    · -- skipped: store unchanged
      have hstep := presetStep_blank (ids k) (nows k) maxP
        (optToJVal JVal.vstr presetName) .vnull pp store hb
      obtain ⟨saved2, errs2, newPart, hloop, hval2, hrange2, hchars2⟩ :=
        ih (k + 1) saved errs store hstore hlen1 (fun i hi => hfresh i (by omega))
      refine ⟨saved2, errs2, newPart, ?_, hval2, ?_, ?_⟩
      · simp only [List.map_cons, presetLoop, hstep]
        exact hloop
      · intro kv hkv
        obtain ⟨j, hj1, hj2, hj3⟩ := hrange2 kv hkv
        exact ⟨j, by omega, by simp only [List.length_cons]; omega, hj3⟩
      · intro m hm
        cases m with
        | zero =>
          constructor
          · intro _ hmem
            obtain ⟨kv, hkv, hkey⟩ := List.mem_map.1 hmem
            obtain ⟨j, hj1, hj2, hj3⟩ := hrange2 kv hkv
            have hkk : ids (k + 0) = ids j := by rw [← hkey, hj3]
            rw [Nat.add_zero] at hkk
            exact absurd hkk (hinj k j (by omega))
          · intro hstorable
            exfalso
            cases hcx : pp.content with
            | none => simp [PresetPrompt.storable, hcx] at hstorable
            | some c =>
              simp only [PresetPrompt.blankContent, hcx, decide_eq_true_eq] at hb
              simp [PresetPrompt.storable, hcx, hb] at hstorable
        | succ m2 =>
          have hm2 : m2 < rest.length := by
            simp only [List.length_cons] at hm
            omega
          have hidx : k + 1 + m2 = k + (m2 + 1) := by omega
          have hcc := hchars2 m2 hm2
          rw [hidx] at hcc
          exact hcc
    · -- non-blank content
      have hcex : ∃ c, pp.content = some c ∧ jsTrim c ≠ "" := by
        cases hcx : pp.content with
        | none => exact absurd (by simp [PresetPrompt.blankContent, hcx]) hb
        | some c =>
          refine ⟨c, rfl, ?_⟩
          intro h
          exact hb (by simp [PresetPrompt.blankContent, hcx, h])
      obtain ⟨c, hc, hct⟩ := hcex
      by_cases hrgood : ∃ r, pp.role = some r ∧ (r = "user" ∨ r = "assistant" ∨ r = "system")
      · obtain ⟨r, hr, hrin⟩ := hrgood
        by_cases hrn : jsTrim (pp.resolvedName (optToJVal JVal.vstr presetName)) = ""
        · -- whitespace name: errored, store unchanged
          have hstep := presetStep_nameBlank (ids k) (nows k) maxP presetName pp c r store
            (hidne k) (hnowi k) hc hct hr hrin hrn
          obtain ⟨saved2, errs2, newPart, hloop, hval2, hrange2, hchars2⟩ :=
            ih (k + 1) saved (errs ++ [_]) store hstore hlen1 (fun i hi => hfresh i (by omega))
          refine ⟨saved2, errs2, newPart, ?_, hval2, ?_, ?_⟩
          · simp only [List.map_cons, presetLoop, hstep]
            exact hloop
          · intro kv hkv
            obtain ⟨j, hj1, hj2, hj3⟩ := hrange2 kv hkv
            exact ⟨j, by omega, by simp only [List.length_cons]; omega, hj3⟩
          · intro m hm
            cases m with
            | zero =>
              constructor
              · intro hblank
                exact absurd hblank hb
              · intro hstorable
                exfalso
                simp only [PresetPrompt.storable, Bool.and_eq_true, decide_eq_true_eq] at hstorable
                exact hstorable.2 hrn
            | succ m2 =>
              have hm2 : m2 < rest.length := by
                simp only [List.length_cons] at hm
                omega
              have hidx : k + 1 + m2 = k + (m2 + 1) := by omega
              have hcc := hchars2 m2 hm2
              rw [hidx] at hcc
              exact hcc
        · -- saved: the record is appended
          have hlen2 : (store.length : Int) < maxP := by
            simp only [List.length_cons] at hlen
            push_cast at hlen
            omega
          have hstep := presetStep_saved (ids k) (nows k) maxP presetName pp c r store
            hstore (hidne k) (hnowi k) hc hct hr hrin hrn hlen2 (hfresh k (Nat.le_refl k))
          have hrecvalid : validatePromptData
              (presetRecordT (ids k) (nows k) (optToJVal JVal.vstr presetName) pp) =
              Except.ok [] := by
            have hv := validate_presetRecord (ids k) (nows k) presetName pp c r
              (hidne k) (hnowi k) hc hct hr hrin
            rw [if_neg hrn] at hv
            exact hv
          obtain ⟨saved2, errs2, newPart, hloop, hval2, hrange2, hchars2⟩ :=
            ih (k + 1) (saved ++ [_]) errs
              (store ++ [(ids k, presetRecordT (ids k) (nows k)
                (optToJVal JVal.vstr presetName) pp)])
              (by
                intro kv hkv
                rcases List.mem_append.1 hkv with h | h
                · exact hstore kv h
                · simp only [List.mem_singleton] at h
                  rw [h]
                  exact hrecvalid)
              (by
                have hlen3 := hlen
                simp only [List.length_cons] at hlen3
                simp only [List.length_append, List.length_cons, List.length_nil]
                push_cast at hlen3 ⊢
                omega)
              (by
                intro i hi
                simp only [List.map_append, List.mem_append]
                push_neg
                refine ⟨hfresh i (by omega), ?_⟩
                simp only [List.map_cons, List.map_nil, List.mem_singleton]
                exact hinj i k (by omega))
          refine ⟨saved2, errs2,
            (ids k, presetRecordT (ids k) (nows k)
              (optToJVal JVal.vstr presetName) pp) :: newPart, ?_, ?_, ?_, ?_⟩
          · simp only [List.map_cons, presetLoop, hstep]
            rw [List.append_assoc] at hloop
            simp only [List.singleton_append] at hloop
            exact hloop
          · intro kv hkv
            rcases List.mem_cons.1 hkv with h | h
            · rw [h]
              exact hrecvalid
            · exact hval2 kv h
          · intro kv hkv
            rcases List.mem_cons.1 hkv with h | h
            · exact ⟨k, Nat.le_refl k, by simp only [List.length_cons]; omega, by rw [h]⟩
            · obtain ⟨j, hj1, hj2, hj3⟩ := hrange2 kv h
              exact ⟨j, by omega, by simp only [List.length_cons]; omega, hj3⟩
          · intro m hm
            cases m with
            | zero =>
              constructor
              · intro hblank
                exact absurd hblank hb
              · intro _
                simp [fieldsGet]
            | succ m2 =>
              have hm2 : m2 < rest.length := by
                simp only [List.length_cons] at hm
                omega
              have hidx : k + 1 + m2 = k + (m2 + 1) := by omega
              have hcc := hchars2 m2 hm2
              rw [hidx] at hcc
              have hne : ids (k + (m2 + 1)) ≠ ids k := hinj _ _ (by omega)
              constructor
              · intro hblank
                simp only [List.map_cons, List.mem_cons]
                push_neg
                exact ⟨hne, hcc.1 hblank⟩
              · intro hstorable
                simp only [fieldsGet, if_neg (Ne.symm hne)]
                exact hcc.2 hstorable
      · -- bad role: errored, store unchanged
        have hbad : match pp.role with
            | some r => ¬(r = "user" ∨ r = "assistant" ∨ r = "system")
            | none => True := by
          cases hrx : pp.role with
          | none => trivial
          | some r =>
            intro h
            exact hrgood ⟨r, hrx, h⟩
        have hstep := presetStep_roleBad (ids k) (nows k) maxP
          (optToJVal JVal.vstr presetName) .vnull pp c store hc hct hbad
        obtain ⟨saved2, errs2, newPart, hloop, hval2, hrange2, hchars2⟩ :=
          ih (k + 1) saved (errs ++ [_]) store hstore hlen1 (fun i hi => hfresh i (by omega))
        refine ⟨saved2, errs2, newPart, ?_, hval2, ?_, ?_⟩
        · simp only [List.map_cons, presetLoop, hstep]
          exact hloop
        · intro kv hkv
          obtain ⟨j, hj1, hj2, hj3⟩ := hrange2 kv hkv
          exact ⟨j, by omega, by simp only [List.length_cons]; omega, hj3⟩
        · intro m hm
          cases m with
          | zero =>
            constructor
            · intro hblank
              exact absurd hblank hb
            · intro hstorable
              exfalso
              simp only [PresetPrompt.storable, Bool.and_eq_true, decide_eq_true_eq] at hstorable
              obtain ⟨⟨h1, h2⟩, h3⟩ := hstorable
              exact hrgood ⟨"user", h2, Or.inl rfl⟩
          | succ m2 =>
            have hm2 : m2 < rest.length := by
              simp only [List.length_cons] at hm
              omega
            have hidx : k + 1 + m2 = k + (m2 + 1) := by omega
            have hcc := hchars2 m2 hm2
            rw [hidx] at hcc
            exact hcc

/-- C6 (counterexample): at the `max_prompts` cap, a preset prompt with
non-empty content and role `user` is NOT stored — `savePrompt` rejects
the fresh id and `saveCurrentPrompt` reports failure. -/
theorem c6_save_preset_counterexample :
    fixturePresetGood.storable (optToJVal JVal.vstr (some "P")) = true ∧
    fieldsGet (saveCurrentPrompt (fun _ => "g1") (fun _ => isoLater) 1
      (canonStore [sampleCanon]) .vnull
      (mkPreset (some "P") [fixturePresetGood])).2 "g1" = none ∧
    (saveCurrentPrompt (fun _ => "g1") (fun _ => isoLater) 1
      (canonStore [sampleCanon]) .vnull
      (mkPreset (some "P") [fixturePresetGood])).1.success = false :=
  ⟨rfl, rfl, rfl⟩

set_option maxHeartbeats 1000000 in
/-- C6: saving from the current preset (no explicit name), on a store of
well-formed canonical records, with fresh injective generated ids and
room below the `max_prompts` cap: every preset prompt whose content is
empty or whitespace-only is skipped (no record appears under its id),
and every preset prompt with non-blank content, role `user` and a
non-blank resolved name becomes a stored record whose metadata has
`usage_count = 0` and `favorite = false`. -/
theorem c6_save_preset_behavior (ids nows : Nat → String) (maxP : Int)
    (cs : List CanonRecord) (presetName : Option String) (pps : List PresetPrompt)
    (hwf : ∀ x ∈ cs, x.wf = true)
    (hinj : ∀ i j, i ≠ j → ids i ≠ ids j)
    (hidne : ∀ i, ids i ≠ "")
    (hfresh : ∀ i, ids i ∉ (canonStore cs).map Prod.fst)
    (hnowi : ∀ i, canonIso (nows i) = true)
    (hpps : pps ≠ [])
    (hlen : ((canonStore cs).length : Int) + pps.length ≤ maxP) :
    ∀ m (hm : m < pps.length),
      ((pps.get ⟨m, hm⟩).blankContent = true →
        fieldsGet (saveCurrentPrompt ids nows maxP (canonStore cs) .vnull
          (mkPreset presetName pps)).2 (ids m) = none) ∧
      ((pps.get ⟨m, hm⟩).storable (optToJVal JVal.vstr presetName) = true →
        fieldsGet (saveCurrentPrompt ids nows maxP (canonStore cs) .vnull
          (mkPreset presetName pps)).2 (ids m) =
          some (presetRecordT (ids m) (nows m) (optToJVal JVal.vstr presetName)
            (pps.get ⟨m, hm⟩)) ∧
        jget (jget (presetRecordT (ids m) (nows m) (optToJVal JVal.vstr presetName)
          (pps.get ⟨m, hm⟩)) "metadata") "usage_count" = JVal.vnum 0 ∧
        jget (jget (presetRecordT (ids m) (nows m) (optToJVal JVal.vstr presetName)
          (pps.get ⟨m, hm⟩)) "metadata") "favorite" = JVal.vbool false) := by
  have hstore : ∀ kv ∈ canonStore cs, validatePromptData kv.2 = Except.ok [] := by
    intro kv hkv
    obtain ⟨x, hx, rfl⟩ := List.mem_map.1 hkv
    simpa [CanonRecord.toJVal] using validate_canon x [] (hwf x hx)
  obtain ⟨saved2, errs2, newPart, hloop, hval2, hrange2, hchars⟩ :=
    presetLoop_canon ids nows maxP presetName hinj hidne hnowi pps 0 [] []
      (canonStore cs) hstore hlen (fun i _ => hfresh i)
  have h0 : jget (mkPreset presetName pps) "name" = optToJVal JVal.vstr presetName := by
    simp [mkPreset, jget, fieldsGet]
  have h1 : jget (mkPreset presetName pps) "prompts" =
      .varr (pps.map PresetPrompt.toJVal) := by
    simp [mkPreset, jget, fieldsGet]
  have h2 : truthy (mkPreset presetName pps) = true := rfl
  have h3 : (pps.map PresetPrompt.toJVal).isEmpty = false := by
    cases pps with
    | nil => exact absurd rfl hpps
    | cons a l => rfl
  have hres : (saveCurrentPrompt ids nows maxP (canonStore cs) .vnull
      (mkPreset presetName pps)).2 = canonStore cs ++ newPart := by
    simp only [saveCurrentPrompt, h2, h0, h1, h3, hloop, Bool.not_true, if_false,
      ite_false, not_true, Bool.false_eq_true, not_false_eq_true, ite_true]
    cases hse : saved2.isEmpty <;> simp [hse]
  intro m hm
  have hch := hchars m hm
  simp only [Nat.zero_add] at hch
  constructor
  · intro hblank
    rw [hres, fieldsGet_append_of_not_mem (hfresh m)]
    exact fieldsGet_eq_none_of_not_mem (hch.1 hblank)
  · intro hstorable
    refine ⟨?_, ?_, ?_⟩
    · rw [hres, fieldsGet_append_of_not_mem (hfresh m)]
      exact hch.2 hstorable
    · simp [presetRecordT, jget, fieldsGet]
    · simp [presetRecordT, jget, fieldsGet]

/-- C6 witness: one storable preset prompt on a one-record store with
room, stored under the generated id with zeroed usage metadata. -/
theorem c6_save_preset_behavior_witness :
    fixturePresetGood.storable (optToJVal JVal.vstr (some "P")) = true ∧
    fieldsGet (saveCurrentPrompt (fun i => String.mk (List.replicate (i + 1) 'g'))
        (fun _ => isoLater) 10 (canonStore [sampleCanon]) .vnull
        (mkPreset (some "P") [fixturePresetGood])).2 (String.mk (List.replicate 1 'g')) =
      some (presetRecordT (String.mk (List.replicate 1 'g')) isoLater
        (optToJVal JVal.vstr (some "P")) fixturePresetGood) := by
  have h := c6_save_preset_behavior (fun i => String.mk (List.replicate (i + 1) 'g'))
    (fun _ => isoLater) 10 [sampleCanon] (some "P") [fixturePresetGood]
    (by decide)
    (by
      intro i j hij heq
      have hl2 := congrArg (fun s => s.data.length) heq
      simp only [List.length_replicate] at hl2
      omega)
    (by
      intro i heq
      have hd := congrArg (fun s => s.data) heq
      simp [List.replicate] at hd)
    (by
      intro i hmem
      simp only [canonStore, sampleCanon, CanonRecord.toJVal, CanonRecord.toJValX,
        List.map_cons, List.map_nil, List.mem_cons, List.not_mem_nil, or_false] at hmem
      have hd := congrArg (fun s => s.data) hmem
      simp [List.replicate] at hd)
    (by
      intro i
      show canonIso isoLater = true
      decide)
    (by decide)
    (by decide)
  exact ⟨by decide, ((h 0 (by decide)).2 (by decide)).1⟩

end PromptSaver
